import Mathlib

/-!
Verification of the ZOCIE chat-bot webhook backend.

The repository contains several near-duplicate server files
(`server-copy.js`, `server-fixed.js`, `server.js`, and an unnamed
dashboard variant).  Where the variants agree we embed the shared
definition once; where they differ, the two embeddings live in the
namespaces `ServerCopy` and `ServerFixed`, translated line by line from
`src/server-copy.js` and `src/server-fixed.js` respectively.

JavaScript values stored in a conversation context are modelled by the
inductive type `JVal` (null, undefined, strings, integer numbers,
arrays, and plain objects as association lists).  A JS object is an
association list `List (String × JVal)`; spreading `{...a, ...b}` is
modelled by folding `setField` over `b`'s entries, which has the same
lookup semantics.  Persistence (`saveToFile`) and the remote Shopify
API are external collaborators: API responses appear as explicit
parameters of the embedded functions, and fire-and-forget persistence
has no effect on the in-memory state modelled here.
-/

/-- A JavaScript value as stored in conversation state: `null`,
`undefined`, a string, an (integer) number, an array, or a plain object
modelled as an association list of fields. -/
inductive JVal where
  | null : JVal
  | undef : JVal
  | str (s : String) : JVal
  | num (n : Int) : JVal
  | arr (elems : List JVal) : JVal
  | obj (fields : List (String × JVal)) : JVal
deriving Repr

/-- The JavaScript `typeof` operator on a `JVal`.  Note `typeof null`
is `"object"`, as in JavaScript. -/
def typeofJS : JVal → String
  | JVal.null => "object"
  | JVal.undef => "undefined"
  | JVal.str _ => "string"
  | JVal.num _ => "number"
  | JVal.arr _ => "object"
  | JVal.obj _ => "object"

/-- Whether a `JVal` is exactly `null` (the JS `=== null` test). -/
def isNullJS : JVal → Bool
  | JVal.null => true
  | _ => false

/-- Whether a `JVal` is exactly `undefined` (the JS `=== undefined` test). -/
def isUndefJS : JVal → Bool
  | JVal.undef => true
  | _ => false

/-- JavaScript truthiness: `null`, `undefined`, `""`, and `0` are falsy;
every other modelled value is truthy. -/
def jsTruthy : JVal → Bool
  | JVal.null => false
  | JVal.undef => false
  | JVal.str s => !(s == "")
  | JVal.num n => !(n == 0)
  | JVal.arr _ => true
  | JVal.obj _ => true

/-- JavaScript property-key coercion (`obj[key]` with a non-string key):
strings pass through, numbers print, `null`/`undefined` print, and a
plain object or array coerces to its default `toString`. -/
def toPropertyKey : JVal → String
  | JVal.str s => s
  | JVal.num n => toString n
  | JVal.null => "null"
  | JVal.undef => "undefined"
  | JVal.arr _ => ""
  | JVal.obj _ => "[object Object]"

/-- The fields of an object value; non-objects have no own fields in
the uses modelled here. -/
def objFields : JVal → List (String × JVal)
  | JVal.obj fields => fields
  | _ => []

/-- A conversation context: a JS object, i.e. an association list from
field names to values. -/
abbrev Ctx := List (String × JVal)

/-- Assign one field of a JS object: replace the binding if the key is
present, otherwise append it. -/
def setField (ctx : Ctx) (key : String) (v : JVal) : Ctx :=
  match ctx with
  | [] => [(key, v)]
  | (k, w) :: rest =>
      if k = key then (k, v) :: rest else (k, w) :: setField rest key v

/-- Object spread `{...ctx, ...fields}`: later fields overwrite. -/
def mergeFields (ctx : Ctx) (fields : List (String × JVal)) : Ctx :=
  fields.foldl (fun acc kv => setField acc kv.1 kv.2) ctx

/-- Read a field of a JS object; a missing field reads as `undefined`. -/
def getField (ctx : Ctx) (key : String) : JVal :=
  match ctx with
  | [] => JVal.undef
  | (k, w) :: rest => if k = key then w else getField rest key

/-- One stored chat message: role, content, timestamp and the metadata
object spread into it (`server-fixed.js`) or nested (`server-copy.js`);
the exact layout of the metadata does not matter for the claims, so a
message is modelled as the JS object produced by the push. -/
structure ChatMessage where
  role : String
  content : JVal
  timestamp : String
  metadata : List (String × JVal) := []
deriving Repr

namespace ServerCopy

/-- Initial context of `server-copy.js`'s `ConversationMemory`
constructor: `{ email: null, orderId: null, previousActions: [] }`. -/
def initialContext : Ctx :=
  [("email", JVal.null), ("orderId", JVal.null),
   ("previousActions", JVal.arr [])]

/-- The `addMessage` of `server-copy.js` (lines 68–80): push the new
message, then `if (this.messages.length > 50) this.messages =
this.messages.slice(-50)` — keep only the last 50 entries. -/
def addMessage (messages : List ChatMessage) (m : ChatMessage) :
    List ChatMessage :=
  let pushed := messages ++ [m]
  if pushed.length > 50 then pushed.drop (pushed.length - 50) else pushed

/-- The `remember(key, value)` of `server-copy.js` (lines 82–88): if the
second argument is a non-null object it is spread into the context;
otherwise `this.context[key] = value`.  Note the branch tests the
VALUE, not the key. -/
def remember (ctx : Ctx) (key : JVal) (value : JVal) : Ctx :=
  if typeofJS value = "object" ∧ isNullJS value = false then
    mergeFields ctx (objFields value)
  else
    setField ctx (toPropertyKey key) value

/-- The `recall(key)` of `server-copy.js`: `return this.context[key]`.
(Named `recallKey` because `recall` is a Mathlib command.) -/
def recallKey (ctx : Ctx) (key : String) : JVal :=
  getField ctx key

end ServerCopy

namespace ServerFixed

/-- Initial context of `server-fixed.js`'s `ConversationMemory`
constructor. -/
def initialContext : Ctx :=
  [("email", JVal.null), ("userName", JVal.null),
   ("previousActions", JVal.arr []), ("lastIntent", JVal.null),
   ("userData", JVal.obj [])]

/-- The `addMessage` of `server-fixed.js` (lines 74–81): a plain push
with the metadata spread in; there is NO truncation in this variant. -/
def addMessage (messages : List ChatMessage) (m : ChatMessage) :
    List ChatMessage :=
  messages ++ [m]

/-- The `remember(keyOrData, value)` of `server-fixed.js` (lines
84–92): if the FIRST argument is a non-null object and no second
argument was passed (`value === undefined`), it is spread into the
context; otherwise `this.context[keyOrData] = value`. -/
def remember (ctx : Ctx) (keyOrData : JVal) (value : JVal) : Ctx :=
  if typeofJS keyOrData = "object" ∧ isNullJS keyOrData = false ∧
      isUndefJS value = true then
    mergeFields ctx (objFields keyOrData)
  else
    setField ctx (toPropertyKey keyOrData) value

/-- The `recall(key)` of `server-fixed.js`: `return this.context[key]`.
(Named `recallKey` because `recall` is a Mathlib command.) -/
def recallKey (ctx : Ctx) (key : String) : JVal :=
  getField ctx key

end ServerFixed

/-!
Intent classification.  The regexes of `detectIntent` are alternations
of plain literals plus the forms `what.*sell`, `what.*have` and
`add.*cart`; we embed them as a small pattern type.  A `.` in a
JavaScript regex (without the `s` flag) matches any character except a
line terminator.
-/

/-- Characters the JavaScript regex `.` matches: everything except the
four line terminators. -/
def isDotChar (c : Char) : Bool :=
  !(c = '\n' || c = '\r' || c = '\u2028' || c = '\u2029')

/-- One alternative of an embedded regex: a literal substring, or
`w₁.*w₂` (literal, any non-terminator run, literal). -/
inductive RePat where
  | lit (w : List Char) : RePat
  | dotStar (w₁ w₂ : List Char) : RePat

/-- Whether some suffix of `m` starts with `w` — i.e. `m` contains the
literal `w` (JavaScript `String.prototype.includes` / regex literal
search). -/
def containsSub (w m : List Char) : Bool :=
  m.tails.any fun t => w.isPrefixOf t

/-- Match `.*w₂` at the start of the list: either `w₂` begins here, or
consume one non-terminator character and continue. -/
def dotStarFrom (w₂ : List Char) : List Char → Bool
  | [] => w₂.isPrefixOf []
  | c :: rest => w₂.isPrefixOf (c :: rest) || (isDotChar c && dotStarFrom w₂ rest)

/-- Test one regex alternative anywhere in the message (unanchored, as
`RegExp.prototype.test` is for these patterns). -/
def testRePat (m : List Char) : RePat → Bool
  | RePat.lit w => containsSub w m
  | RePat.dotStar w₁ w₂ =>
      m.tails.any fun t => w₁.isPrefixOf t && dotStarFrom w₂ (t.drop w₁.length)

/-- Test an alternation of alternatives. -/
def testAlts (alts : List RePat) (m : List Char) : Bool :=
  alts.any (testRePat m)

/-- JavaScript `String.prototype.trim` whitespace (the subset relevant
to chat text). -/
def jsWhitespace (c : Char) : Bool :=
  c = ' ' || c = '\t' || c = '\n' || c = '\r' ||
  c = '\x0b' || c = '\x0c'

/-- `String.prototype.trim` on a character list. -/
def jsTrim (l : List Char) : List Char :=
  ((l.dropWhile jsWhitespace).reverse.dropWhile jsWhitespace).reverse

/-- One entry of the classifier's fixed intent enumeration: a name, the
regex (as an alternation), and the fixed confidence. -/
structure IntentEntry where
  name : String
  alts : List RePat
  confidence : ℚ

/-- First match wins over the enumeration, in declaration order; no
match yields `general_query` with confidence 0.5.  This is the
`for … of Object.entries(intents)` loop of `detectIntent`. -/
def detectFirst : List IntentEntry → List Char → String × ℚ
  | [], _ => ("general_query", 1/2)
  | e :: rest, m =>
      if testAlts e.alts m then (e.name, e.confidence) else detectFirst rest m

namespace ServerFixed

/-- The intent enumeration of `server-fixed.js`'s `detectIntent`
(lines 258–283), in declaration order. -/
def intents : List IntentEntry :=
  [⟨"track_order",
    [RePat.lit "track".data, RePat.lit "status".data, RePat.lit "where".data,
     RePat.lit "delivery".data, RePat.lit "order".data, RePat.lit "shipping".data],
    95/100⟩,
   ⟨"browse_deals",
    [RePat.lit "deal".data, RePat.lit "product".data, RePat.lit "browse".data,
     RePat.lit "show".data, RePat.dotStar "what".data "sell".data,
     RePat.dotStar "what".data "have".data, RePat.lit "catalog".data,
     RePat.lit "collection".data],
    9/10⟩,
   ⟨"add_cart",
    [RePat.dotStar "add".data "cart".data, RePat.lit "add to cart".data,
     RePat.lit "add this".data, RePat.lit "add".data, RePat.lit "buy".data,
     RePat.lit "purchase".data, RePat.lit "want to buy".data,
     RePat.lit "interested".data, RePat.lit "get me".data,
     RePat.lit "i want".data, RePat.lit "cart".data],
    9/10⟩,
   ⟨"buy_now",
    [RePat.lit "buy now".data, RePat.lit "checkout".data, RePat.lit "payment".data,
     RePat.lit "complete purchase".data, RePat.lit "pay now".data],
    85/100⟩,
   ⟨"return_order",
    [RePat.lit "return".data, RePat.lit "refund".data, RePat.lit "money back".data,
     RePat.lit "cancel".data, RePat.lit "issue".data, RePat.lit "wrong".data,
     RePat.lit "damaged".data, RePat.lit "not good".data],
    9/10⟩,
   ⟨"product_info",
    [RePat.lit "tell".data, RePat.lit "about".data, RePat.lit "info".data,
     RePat.lit "details".data, RePat.lit "describe".data,
     RePat.lit "specifications".data, RePat.lit "spec".data],
    8/10⟩]

/-- `detectIntent` of `server-fixed.js` (lines 255–292): lower-case and
trim the message, then first match wins over `intents`. -/
def detectIntent (userMessage : String) : String × ℚ :=
  detectFirst intents (jsTrim (userMessage.data.map Char.toLower))

end ServerFixed

/-!
Email extraction.  Both executors use `userMessage.match(/[\w\.-]+@[\w\.-]+\.\w+/)`.
A JavaScript regex match is leftmost, with greedy backtracking.  For
this pattern the search simplifies: `@` is not in the class `[\w.-]`,
so the first `[\w.-]+` can only be the maximal run before an `@`; after
the `@` the engine takes the maximal `[\w.-]+` run and backtracks it,
longest first, until the remainder starts with `.` followed by at least
one word character; `\w+` then takes the maximal word run (the pattern
ends there, so no further backtracking).  `findEmail` implements
exactly this search.
-/

/-- JavaScript `\w`: ASCII letters, digits and underscore. -/
def isWordCharJS (c : Char) : Bool :=
  c.isAlpha || c.isDigit || c = '_'

/-- The character class `[\w.-]` of the email regex. -/
def isEmailAtomChar (c : Char) : Bool :=
  isWordCharJS c || c = '.' || c = '-'

/-- Backtracking for the part after `@`: try a dot at index `k`
(descending), requiring at least one `[\w.-]` character before the dot
and at least one `\w` character after it; return the matched length
within `rest` (dot index + 1 + greedy `\w+` run). -/
def tryDot (rest : List Char) : Nat → Option Nat
  | 0 => none
  | k + 1 =>
      match rest.get? (k + 1) with
      | some '.' =>
          let w := ((rest.drop (k + 2)).takeWhile isWordCharJS).length
          if w > 0 then some ((k + 1) + 1 + w) else tryDot rest k
      | _ => tryDot rest k

/-- Length of the email-regex match starting exactly at the head of
`l`, if any. -/
def matchEmailAt (l : List Char) : Option Nat :=
  let m := (l.takeWhile isEmailAtomChar).length
  if m = 0 then none
  else
    match l.drop m with
    | '@' :: rest =>
        let r := (rest.takeWhile isEmailAtomChar).length
        match tryDot rest r with
        | some len₂ => some (m + 1 + len₂)
        | none => none
    | _ => none

/-- The leftmost match of the email regex in the message, as the
matched characters (`match[0]`). -/
def findEmail : List Char → Option (List Char)
  | [] => none
  | c :: rest =>
      match matchEmailAt (c :: rest) with
      | some len => some ((c :: rest).take len)
      | none => findEmail rest

/-!
Numeric string parsing.  Variant prices arrive as decimal strings;
`parseFloatQ` models JavaScript `parseFloat` (longest valid prefix
after leading whitespace, `none` for NaN) and `toNumberQ` models the
`Number(...)` coercion applied by the arithmetic operators (the whole
string must be a valid decimal; the empty or all-whitespace string is
0).  Exponent notation does not occur in the price strings modelled
here and is omitted from both grammars.
-/

/-- The parsed pieces of a decimal numeral: sign, integer digits,
fraction digits. -/
structure DecParts where
  neg : Bool
  ip : List Char
  fp : List Char
deriving DecidableEq, Repr

/-- Value of a list of decimal digits. -/
def digitsVal (l : List Char) : Nat :=
  l.foldl (fun a c => 10 * a + (c.toNat - 48)) 0

/-- The rational value of a parsed decimal numeral. -/
def decPartsValue (d : DecParts) : ℚ :=
  (if d.neg then -1 else 1) *
    ((digitsVal d.ip : ℚ) + (digitsVal d.fp : ℚ) / 10 ^ d.fp.length)

/-- Decompose a string per `parseFloat` (longest valid prefix after
leading whitespace); `none` when no digit is found (NaN). -/
def parseFloatParts (s : String) : Option DecParts :=
  let l := s.data.dropWhile jsWhitespace
  let sl : Bool × List Char :=
    match l with
    | '-' :: rest => (true, rest)
    | '+' :: rest => (false, rest)
    | _ => (false, l)
  let ip := sl.2.takeWhile Char.isDigit
  let rest := sl.2.drop ip.length
  let fp :=
    match rest with
    | '.' :: r₂ => r₂.takeWhile Char.isDigit
    | _ => []
  if ip.isEmpty ∧ fp.isEmpty then none
  else some ⟨sl.1, ip, fp⟩

/-- JavaScript `parseFloat` on our decimal grammar: `none` is NaN. -/
def parseFloatQ (s : String) : Option ℚ :=
  (parseFloatParts s).map decPartsValue

/-- Decompose a string per the `Number(...)` coercion: the whole
(whitespace-trimmed) string must be a valid decimal; the empty string
is `0`; `none` is NaN. -/
def toNumberParts (s : String) : Option DecParts :=
  let l := jsTrim s.data
  if l.isEmpty then some ⟨false, [], []⟩
  else
    let sl : Bool × List Char :=
      match l with
      | '-' :: rest => (true, rest)
      | '+' :: rest => (false, rest)
      | _ => (false, l)
    let ip := sl.2.takeWhile Char.isDigit
    let rest := sl.2.drop ip.length
    let dotPart : Option (List Char) :=
      match rest with
      | '.' :: r₂ => some (r₂.takeWhile Char.isDigit)
      | _ => none
    let fp := dotPart.getD []
    let consumed :=
      ip.length + (match dotPart with | some f => 1 + f.length | none => 0)
    if ip.isEmpty ∧ fp.isEmpty then none
    else if consumed = sl.2.length then some ⟨sl.1, ip, fp⟩
    else none

/-- JavaScript `Number(...)` string coercion on our decimal grammar:
`none` is NaN. -/
def toNumberQ (s : String) : Option ℚ :=
  (toNumberParts s).map decPartsValue

/-- JavaScript string coercion of a stored value (template literals);
for the values handled here it coincides with property-key coercion. -/
def jsString (v : JVal) : String := toPropertyKey v

/-!
String similarity (`server-fixed.js` lines 173–213, reused verbatim in
the other variants).  `levenshteinDistance` is the source's dynamic
program: `matrix[0] = [0..str1.length]`, and each further row is
computed from the previous one, iterating over `str2`'s characters;
`nextRowGo` walks one row (carrying the diagonal, the remaining
previous row, and the entry just written), and the result is the last
entry of the last row.  `levRec` is the textbook recursive form of the
same recurrence (peeling last characters, hence stated on reversed
lists); the development below proves the two agree.
-/

/-- Walk one row of the source's Levenshtein matrix: for each character
`c` of `str1`, the new entry is the diagonal when `c` matches the row's
character, else `min(diag+1, left+1, up+1)` exactly as in the source. -/
def nextRowGo (ch : Char) : List Char → Nat → List Nat → Nat → List Nat
  | [], _, _, _ => []
  | _ :: _, _, [], _ => []
  | c :: cs, diag, up :: prest, left =>
      let cur := if c = ch then diag else min (min (diag + 1) (left + 1)) (up + 1)
      cur :: nextRowGo ch cs up prest cur

/-- Compute matrix row `i` from row `i-1`: the leading entry is the row
index (`matrix[i][0] = i`), then walk the columns. -/
def nextRow (ch : Char) (str1 : List Char) (prev : List Nat) : List Nat :=
  let first := prev.headD 0 + 1
  first :: nextRowGo ch str1 (prev.headD 0) prev.tail first

/-- Iterate the rows over `str2`'s characters. -/
def levRows (str1 : List Char) : List Char → List Nat → List Nat
  | [], row => row
  | ch :: rest, row => levRows str1 rest (nextRow ch str1 row)

/-- The source's `levenshteinDistance(str1, str2)`: the bottom-right
entry of the dynamic-programming matrix. -/
def levenshteinDistance (str1 str2 : List Char) : Nat :=
  (levRows str1 str2 (List.range (str1.length + 1))).getLastD 0

/-- Reference recursion for the same recurrence, peeling characters
from the left; the matrix peels from the right, so the equivalence
theorem relates `levenshteinDistance s t` to `levRec s.reverse
t.reverse`. -/
def levRec : List Char → List Char → Nat
  | [], t => t.length
  | a :: s, [] => (a :: s).length
  | a :: s, b :: t =>
      if a = b then levRec s t
      else 1 + min (min (levRec s t) (levRec s (b :: t))) (levRec (a :: s) t)
termination_by s t => s.length + t.length
decreasing_by all_goals simp_arith

/-- Entries of one matrix row as specified values: entry `j` is the
distance between the (reversed) length-`j` prefix of `str1` and the
processed (reversed) prefix of `str2`; `acc` accumulates the reversed
`str1`-prefix. -/
def rowSpecAux (acc tRev : List Char) : List Char → List Nat
  | [] => [levRec acc tRev]
  | c :: cs => levRec acc tRev :: rowSpecAux (c :: acc) tRev cs

/-- The source's `calculateSimilarity(str1, str2)` (lines 173–185):
`1.0` when the longer string is empty, `0.9` when the longer contains
the shorter, else `(longer.length - editDistance) / longer.length`. -/
def calculateSimilarity (str1 str2 : List Char) : ℚ :=
  let longer := if str1.length > str2.length then str1 else str2
  let shorter := if str1.length > str2.length then str2 else str1
  if longer.length = 0 then 1
  else if containsSub shorter longer then 9/10
  else
    ((longer.length : ℚ) - levenshteinDistance str1 str2) / longer.length

/-!
Wire-level and collaborator data types shared by the executors and the
response builders.  Shopify API responses (orders, products, draft
orders) are collaborator data and appear as explicit parameters; an
absent (`null`) response models both a transport failure and a missing
field, exactly as `shopifyApiCall` returns `null` in both cases.
-/

/-- An action button `{label, type, value}` as passed through to the
chat platform. -/
structure SButton where
  label : String
  type : String
  value : String
deriving Repr, DecidableEq

/-- A rich product card. -/
structure SCard where
  title : String
  subtitle : String
  image : String
  buttons : List SButton := []
  metadata : List (String × JVal) := []
deriving Repr

/-- The executor's result object: either a needs-info directive or a
reply with optional suggestions, buttons, cards, and data to persist
(`remember` flag plus `data` fields). -/
structure ActionResult where
  message : Option String := none
  needsInfo : Bool := false
  fieldNeeded : Option String := none
  question : Option String := none
  inputType : Option String := none
  suggestions : List String := []
  buttons : List SButton := []
  cards : List SCard := []
  remember : Bool := false
  data : List (String × JVal) := []
deriving Repr

/-- The `input` object of a needs-info question; `validate` holds the
declared format (`validate: { format: "email" }` becomes
`some "email"`). -/
structure InputSpec where
  type : String
  validate : Option String := none
deriving Repr, DecidableEq

/-- One entry of a needs-info envelope's `questions` array. -/
structure WireQuestion where
  name : Option String := none
  replies : List (Option String) := []
  input : Option InputSpec := none
deriving Repr

/-- The JSON envelope returned to the chat platform.  `replies` entries
are `Option String` because the copy variant can place an absent
message into the array. -/
structure WireResponse where
  action : String := ""
  context_id : Option String := none
  questions : List WireQuestion := []
  replies : List (Option String) := []
  suggestions : List String := []
  buttons : List SButton := []
  cards : List SCard := []
deriving Repr

/-- An HTTP response of the webhook endpoint: status code plus the
reply envelope. -/
structure HttpResponse where
  status : Nat
  action : String
  replies : List String
  suggestions : List String := []
deriving Repr, DecidableEq

/-- A line item of an order (used by the copy variant's item list). -/
structure LineItem where
  quantity : Int
  name : String
deriving Repr

/-- A fulfillment record carrying tracking data. -/
structure Fulfillment where
  tracking_number : JVal := JVal.null
  tracking_company : JVal := JVal.null
deriving Repr

/-- A Shopify order as consumed by the executors.  `created_at` is the
raw ISO timestamp string; `created_at_ms` is its epoch-millisecond
value as produced by `new Date(...).getTime()` (date parsing is a
collaborator). -/
structure Order where
  id : Int
  name : String
  fulfillment_status : JVal := JVal.null
  financial_status : JVal := JVal.null
  total_price : String := "0.00"
  currency : String := "USD"
  created_at : String := ""
  created_at_ms : Int := 0
  order_status_url : String := ""
  token : String := ""
  line_items : List LineItem := []
  fulfillments : List Fulfillment := []
deriving Repr

/-- A product variant; `price` and `compare_at_price` are decimal
strings or `null`. -/
structure Variant where
  id : Int
  price : JVal := JVal.null
  compare_at_price : JVal := JVal.null
deriving Repr

/-- A Shopify product; `images` lists each image's `src`. -/
structure Product where
  title : String
  handle : String := ""
  variants : List Variant := []
  images : List String := []
deriving Repr

/-- A line item of a draft order (cart). -/
structure DraftLineItem where
  variant_id : JVal
  quantity : Int
deriving Repr

/-- A draft order (the cart). -/
structure DraftOrder where
  id : Int
  line_items : List DraftLineItem := []
  total_price : JVal := JVal.null
  invoice_url : String := ""
deriving Repr

/-- The collaborator responses a single webhook turn can consume, plus
the clock readings.  Each field is the (already unwrapped) payload of
one remote call; `none` covers transport errors, non-2xx responses and
missing wrapper fields alike. -/
structure ApiResponses where
  orders : Option (List Order) := none
  products : Option (List Product) := none
  search : Option (List Product) := none
  existingDraft : Option DraftOrder := none
  createdDraft : Option DraftOrder := none
  updatedDraft : Option DraftOrder := none
  nowMs : Int := 0
  nowIso : String := ""
deriving Repr

/-- In-memory conversation state: the message list and the context. -/
structure Memory where
  messages : List ChatMessage := []
  context : Ctx
deriving Repr

/-- `new Date(ms).toLocaleDateString()`: locale-dependent rendering is
outside the model; rendered here as the timestamp's decimal form.  No
claim depends on the shape of this string. -/
def localeDateString (ms : Int) : String := toString ms

/-- `s.split(' ')[0]`: the characters before the first space. -/
def firstWord (s : String) : String :=
  String.mk (s.data.takeWhile (fun c => !(c = ' ')))

/-- JavaScript `a || b` for an optional string against a default. -/
def jsOrStr (o : Option String) (d : String) : String :=
  match o with
  | some s => if s = "" then d else s
  | none => d

/-- JavaScript `v || d` rendered as a string. -/
def jsOrVal (v : JVal) (d : String) : String :=
  if jsTruthy v then jsString v else d

/-- Rendering of a possibly-NaN integer (`none` is NaN). -/
def showJsInt (v : Option Int) : String :=
  match v with
  | some n => toString n
  | none => "NaN"

/-- The comparison `parseFloat(a) > parseFloat(b)`; any NaN makes it
false, as in JavaScript. -/
def jsGtFloat (a b : String) : Bool :=
  match parseFloatQ a, parseFloatQ b with
  | some x, some y => decide (x > y)
  | _, _ => false

/-- `Math.round(((comparePrice - price) / comparePrice) * 100)` where
the operands are strings coerced by `Number(...)`; `none` is NaN. -/
def discountPct (compare price : String) : Option Int :=
  match toNumberQ compare, toNumberQ price with
  | some c, some p => some (round (((c - p) / c) * 100))
  | _, _ => none

/-- The discount-badge guard
`if (comparePrice && parseFloat(comparePrice) > parseFloat(price))`
shared verbatim by `server-fixed.js` (line 389) and `server-copy.js`
(line 490). -/
def discountShown (price : String) (comparePrice : JVal) : Bool :=
  jsTruthy comparePrice && jsGtFloat (jsString comparePrice) price

/-- A card subtitle / price text with the optional savings badge
(`server-fixed.js` lines 386–392; `server-copy.js` renders the same
data as `🔥 $p (Save d%)`). -/
def cardSubtitle (price : String) (comparePrice : JVal) : String :=
  if discountShown price comparePrice then
    "$" ++ price ++ " 🔥 Save " ++
      showJsInt (discountPct (jsString comparePrice) price) ++ "%"
  else "$" ++ price

/-!
Message-token extraction used by the add-to-cart flow of
`server-fixed.js` (lines 459–516).
-/

/-- The variant-id regex `/\b(\d{11,})\b/`: the leftmost maximal digit
run of length ≥ 11 whose neighbours are not word characters.  A
position inside a digit run cannot start a match (no word boundary
there), so a left-to-right scan tracking whether the previous character
is a word character is exact. -/
def findVariantToken (prevIsWord : Bool) : List Char → Option (List Char)
  | [] => none
  | c :: rest =>
      if c.isDigit && !prevIsWord then
        let run := (c :: rest).takeWhile Char.isDigit
        let after := (c :: rest).drop run.length
        if run.length ≥ 11 &&
            (match after with
             | [] => true
             | a :: _ => !isWordCharJS a) then
          some run
        else findVariantToken (isWordCharJS c) rest
      else findVariantToken (isWordCharJS c) rest

/-- After a digit run, the quantity regex needs `\s*` then one of
`x|of|quantity|pcs`, case-insensitively. -/
def quantityWordAt (l : List Char) : Bool :=
  let low := (l.dropWhile jsWhitespace).map Char.toLower
  "x".data.isPrefixOf low || "of".data.isPrefixOf low ||
  "quantity".data.isPrefixOf low || "pcs".data.isPrefixOf low

/-- The quantity regex `/(\d+)\s*(x|of|quantity|pcs)/i`: leftmost digit
run followed (after optional whitespace) by a quantity word; the
captured digits are parsed with `parseInt`. -/
def findQuantity : List Char → Option Nat
  | [] => none
  | c :: rest =>
      if c.isDigit then
        let digits := (c :: rest).takeWhile Char.isDigit
        let after := (c :: rest).drop digits.length
        if quantityWordAt after then some (digitsVal digits)
        else findQuantity rest
      else findQuantity rest

/-- The clean-up
`.replace(/add to cart|add|cart|buy|purchase|i want|get me/gi, '')`:
a global leftmost scan; at each position the alternatives are tried in
declaration order and a match is deleted, resuming after it. -/
def stripCartWords (l : List Char) : List Char :=
  match l with
  | [] => []
  | c :: rest =>
      if "add to cart".data.isPrefixOf (c :: rest) then
        stripCartWords ((c :: rest).drop 11)
      else if "add".data.isPrefixOf (c :: rest) then
        stripCartWords ((c :: rest).drop 3)
      else if "cart".data.isPrefixOf (c :: rest) then
        stripCartWords ((c :: rest).drop 4)
      else if "buy".data.isPrefixOf (c :: rest) then
        stripCartWords ((c :: rest).drop 3)
      else if "purchase".data.isPrefixOf (c :: rest) then
        stripCartWords ((c :: rest).drop 8)
      else if "i want".data.isPrefixOf (c :: rest) then
        stripCartWords ((c :: rest).drop 6)
      else if "get me".data.isPrefixOf (c :: rest) then
        stripCartWords ((c :: rest).drop 6)
      else c :: stripCartWords rest
termination_by l.length
decreasing_by all_goals (simp [List.length_drop]; try omega)

/-- The fuzzy-match loop of `server-fixed.js` (lines 498–507): fold the
search results, keeping the first product whose similarity to the
(lower-cased) query strictly exceeds the best score so far, starting
from a null best at score 0. -/
def bestMatchFold (name : String) (products : List Product) :
    Option Product × ℚ :=
  products.foldl
    (fun acc product =>
      let score := calculateSimilarity (name.data.map Char.toLower)
        (product.title.data.map Char.toLower)
      if score > acc.2 then (some product, score) else acc)
    (none, 0)

namespace ServerFixed

/-- `memory.remember(key, value)` with a string key lifted to `Memory`. -/
def rememberMem (m : Memory) (key : String) (v : JVal) : Memory :=
  { m with context := remember m.context (JVal.str key) v }

/-- The shared email-resolution prefix of the `track_order` and
`add_cart` cases (`server-fixed.js` lines 314–326 and 437–448): take
`context.email`; if falsy, extract an email from the message and, on
success, `memory.remember('email', email)` immediately (the
`saveToFile()` call is fire-and-forget persistence, outside the model).
Returns the resolved email value and the possibly-updated memory. -/
def resolveEmail (userMessage : String) (context : Ctx) (memory : Memory) :
    JVal × Memory :=
  let email := getField context "email"
  if !(jsTruthy email) then
    match findEmail userMessage.data with
    | some e =>
        let es := JVal.str (String.mk e)
        (es, rememberMem memory "email" es)
    | none => (email, memory)
  else (email, memory)

/-- The `track_order` case of `server-fixed.js`'s `executeAction`
(lines 313–362).  `orders` is the unwrapped `/orders.json` response. -/
def trackOrderCase (userMessage : String) (context : Ctx) (memory : Memory)
    (orders : Option (List Order)) : ActionResult × Memory :=
  let em := resolveEmail userMessage context memory
  if !(jsTruthy em.1) then
    ({ needsInfo := true, fieldNeeded := some "email",
       question := some "📧 What's your email to find your order?",
       inputType := some "email" }, em.2)
  else
    match orders with
    | some (order :: _) =>
        ({ message := some ("📦 **Order #" ++ order.name ++ "**\n\nStatus: " ++
             jsOrVal order.fulfillment_status "Pending" ++ "\nTotal: " ++
             order.total_price ++ " " ++ order.currency ++ "\nPlaced: " ++
             localeDateString order.created_at_ms),
           remember := true,
           data := [("email", em.1), ("orderId", JVal.num order.id)],
           buttons := [⟨"Track Shipment", "url", order.order_status_url⟩],
           suggestions := ["View Details", "Return Order", "Browse Products"] },
         em.2)
    | _ =>
        ({ message := some ("📭 No orders found for " ++ jsString em.1 ++
             ".\n\nPlease check your email address or browse our products!"),
           suggestions := ["Browse Products", "Help"] }, em.2)

/-- One product card of the `browse_deals` case (`server-fixed.js`
lines 377–421). -/
def productCard (shopDomain : String) (product : Product) : SCard :=
  let variant := product.variants.head?
  let price : String :=
    match variant with
    | some v => jsOrVal v.price "0.00"
    | none => "0.00"
  let comparePrice : JVal :=
    match variant with
    | some v => v.compare_at_price
    | none => JVal.undef
  let variantId : JVal :=
    match variant with
    | some v => if jsTruthy (JVal.num v.id) then JVal.num v.id else JVal.str ""
    | none => JVal.str ""
  let image : String :=
    match product.images.head? with
    | some s =>
        if s = "" then "https://via.placeholder.com/400x400?text=No+Image" else s
    | none => "https://via.placeholder.com/400x400?text=No+Image"
  let productUrl := "https://" ++ shopDomain ++ "/products/" ++ product.handle
  { title := product.title,
    subtitle := cardSubtitle price comparePrice,
    image := image,
    buttons := [⟨"🛒 Add to Cart", "text", "add " ++ jsString variantId ++ " to cart"⟩,
                ⟨"💳 Buy Now", "url", productUrl⟩,
                ⟨"ℹ️ Details", "url", productUrl⟩],
    metadata := [("variant_id", JVal.str (jsString variantId)),
                 ("price", JVal.str price),
                 ("product_handle", JVal.str product.handle)] }

/-- The `browse_deals` case of `server-fixed.js`'s `executeAction`
(lines 364–433): up to 8 cards, persisting the product count and the
browse timestamp. -/
def browseDealsCase (shopDomain : String) (products : Option (List Product))
    (nowIso : String) : ActionResult :=
  match products with
  | some (p :: ps) =>
      let cards := ((p :: ps).take 8).map (productCard shopDomain)
      { message := some ("🛍️ **Today's Top Deals**\n\nFound " ++
          toString cards.length ++ " amazing products for you!"),
        cards := cards,
        suggestions := ["Add to Cart", "View More", "Track Order"],
        remember := true,
        data := [("productCount", JVal.num (p :: ps).length),
                 ("lastBrowsed", JVal.str nowIso)] }
  | _ =>
      { message := some "🛍️ No products available right now. Check back soon!",
        suggestions := ["Help", "Track Order"] }

/-- Increment the quantity of the first cart line whose variant id
prints as `variantId` (`currentItems.find(...)` then `existingItem.quantity += quantity`). -/
def bumpFirst (variantId : String) (q : Int) :
    List DraftLineItem → List DraftLineItem
  | [] => []
  | item :: rest =>
      if jsString item.variant_id = variantId then
        { item with quantity := item.quantity + q } :: rest
      else item :: bumpFirst variantId q rest

/-- The success reply of the `add_cart` case (`server-fixed.js` lines
618–652). -/
def addCartSuccess (draftOrder : DraftOrder) (variantId : String)
    (productName : Option String) (quantity : Nat) (email : JVal) :
    ActionResult :=
  let itemCount := draftOrder.line_items.length
  let totalPrice := jsOrVal draftOrder.total_price "0.00"
  let productTitle := jsOrStr productName "Product"
  { message := some ("✅ **Added to Cart!**\n\n📦 " ++ toString quantity ++
      "x " ++ productTitle ++ "\n\n🛒 **Your Cart:**\nItems: " ++
      toString itemCount ++ "\nTotal: $" ++ totalPrice ++
      "\n\nReady to checkout?"),
    remember := true,
    data := [("email", email), ("draftOrderId", JVal.num draftOrder.id),
             ("lastAddedVariant", JVal.str variantId),
             ("lastAddedProduct", JVal.str productTitle)],
    buttons := [⟨"🛍️ View Cart", "url", draftOrder.invoice_url⟩,
                ⟨"💳 Checkout Now", "url", draftOrder.invoice_url⟩],
    suggestions := ["Browse More", "View Cart", "Checkout"] }

/-- The `add_cart` case of `server-fixed.js`'s `executeAction` (lines
436–653): resolve the email (with write-back), extract a variant id or
fuzzy-match a product name via the search collaborator, then create or
update the draft order.  `api.search`, `api.existingDraft`,
`api.createdDraft` and `api.updatedDraft` are the respective remote
responses. -/
def addCartCase (userMessage : String) (context : Ctx) (memory : Memory)
    (api : ApiResponses) : ActionResult × Memory :=
  let em := resolveEmail userMessage context memory
  let email := em.1
  let memory₁ := em.2
  if !(jsTruthy email) then
    ({ needsInfo := true, fieldNeeded := some "email",
       question := some "📧 I need your email to add items to your cart",
       inputType := some "email" }, memory₁)
  else
    let variantTok := (findVariantToken false userMessage.data).map String.mk
    let quantity : Nat :=
      match findQuantity userMessage.data with
      | some q => q
      | none => 1
    -- fuzzy product search when no variant id was present (lines 479–516)
    let vp : Option String × Option String :=
      match variantTok with
      | some v => (some v, none)
      | none =>
          let cleanMessage :=
            String.mk (jsTrim (stripCartWords (userMessage.data.map Char.toLower)))
          if cleanMessage.length > 2 then
            match api.search with
            | some (p :: ps) =>
                match (bestMatchFold cleanMessage (p :: ps)).1 with
                | some best =>
                    match best.variants.head? with
                    | some v => (some (toString v.id), some best.title)
                    | none => (none, some cleanMessage)
                | none => (none, some cleanMessage)
            | _ => (none, some cleanMessage)
          else (none, none)
    match vp.1 with
    | none =>
        ({ message := some ("🛒 I'd love to add that to your cart!\n\n" ++
             "Could you tell me which product you want? You can:\n" ++
             "• Say the product name\n• Give me the product number\n" ++
             "• Browse deals and choose from there"),
           suggestions := ["Browse Deals", "Help"] }, memory₁)
    | some variantId =>
        -- get or create the draft order (lines 526–616)
        let draftOrderId₀ := getField context "draftOrderId"
        let existing : Option DraftOrder :=
          if jsTruthy draftOrderId₀ then api.existingDraft else none
        match existing with
        | none =>
            match api.createdDraft with
            | none =>
                ({ message := some "⚠️ Could not add to cart. Please try again.",
                   suggestions := ["Try Again", "Browse Products"] }, memory₁)
            | some draftOrder =>
                let memory₂ :=
                  rememberMem memory₁ "draftOrderId" (JVal.num draftOrder.id)
                (addCartSuccess draftOrder variantId vp.2 quantity email, memory₂)
        | some draftOrder₀ =>
            -- request body of the PUT: incremented or appended line items
            let currentItems := draftOrder₀.line_items
            let _newItems :=
              if currentItems.any (fun item => jsString item.variant_id = variantId)
              then bumpFirst variantId quantity currentItems
              else currentItems ++
                [⟨JVal.num (digitsVal variantId.data), (quantity : Int)⟩]
            match api.updatedDraft with
            | none =>
                ({ message := some "⚠️ Could not update cart. Please try again.",
                   suggestions := ["Try Again", "View Cart"] }, memory₁)
            | some updated =>
                (addCartSuccess updated variantId vp.2 quantity email, memory₁)

/-- The `buy_now` case (`server-fixed.js` lines 656–672): context email
only, no message extraction. -/
def buyNowCase (context : Ctx) : ActionResult :=
  if !(jsTruthy (getField context "email")) then
    { needsInfo := true, fieldNeeded := some "email",
      question := some "📧 What's your email to complete the purchase?",
      inputType := some "email" }
  else
    { message := some ("💳 **Ready to Checkout!**\n\nPlease proceed to " ++
        "complete your purchase.\n\nClick the button below to go to our " ++
        "secure checkout."),
      suggestions := ["Browse More", "Help"] }

/-- The `return_order` case (`server-fixed.js` lines 674–690). -/
def returnOrderCase (context : Ctx) : ActionResult :=
  if !(jsTruthy (getField context "email")) then
    { needsInfo := true, fieldNeeded := some "email",
      question := some "📧 What's your email for the return?",
      inputType := some "email" }
  else
    { message := some ("🔄 **Return Process**\n\nWe'll help you process " ++
        "your return.\n\n1️⃣ Please describe the issue\n2️⃣ We'll verify " ++
        "your order\n3️⃣ Send return label\n4️⃣ Process refund\n\nWhat's " ++
        "the issue with your order?"),
      suggestions := ["Damaged", "Wrong Item", "Not As Described", "Cancel"] }

/-- The `general_query`/default case (`server-fixed.js` lines 692–718). -/
def generalQueryCase (context : Ctx) : ActionResult :=
  let userName := getField context "userName"
  let greeting :=
    if jsTruthy userName then "Hi " ++ firstWord (jsString userName) ++ "! 👋"
    else "Hi! 👋"
  let prevNonempty : Bool :=
    match getField context "previousActions" with
    | JVal.arr l => decide (l.length > 0)
    | _ => false
  let message₁ :=
    if jsTruthy (getField context "email") || prevNonempty then
      greeting ++ " Welcome back!"
    else greeting
  { message := some (message₁ ++ " How can I help you today?\n\n" ++
      "💬 You can:\n• 🛍️ Browse deals\n• 📦 Track orders\n" ++
      "• 🛒 Add to cart\n• 💳 Buy now\n• 🔄 Return items"),
    suggestions := ["Browse Deals", "Track Order", "Add to Cart", "Help"] }

/-- `executeAction` of `server-fixed.js` (lines 303–720): the guard for
missing credentials, then the intent switch. -/
def executeAction (intent : String) (userMessage : String) (context : Ctx)
    (shopDomain adminToken : String) (memory : Memory) (api : ApiResponses) :
    ActionResult × Memory :=
  if shopDomain = "" ∨ adminToken = "" then
    ({ message := some "Configuration error. Please reconnect.",
       suggestions := ["Help"] }, memory)
  else
    match intent with
    | "track_order" => trackOrderCase userMessage context memory api.orders
    | "browse_deals" => (browseDealsCase shopDomain api.products api.nowIso, memory)
    | "add_cart" => addCartCase userMessage context memory api
    | "buy_now" => (buyNowCase context, memory)
    | "return_order" => (returnOrderCase context, memory)
    | _ => (generalQueryCase context, memory)

end ServerFixed

/-- The needs-info question entry built identically by both variants'
`buildSalesIQResponse`: name and prompt from the action result, and an
`input` spec spread in only when `inputType` is truthy, with an email
validation hint when it is `"email"`. -/
def buildQuestion (r : ActionResult) : WireQuestion :=
  let inputSpec : Option InputSpec :=
    match r.inputType with
    | some it =>
        if it = "" then none
        else some { type := it,
                    validate := if it = "email" then some "email" else none }
    | none => none
  { name := r.fieldNeeded, replies := [r.question], input := inputSpec }

namespace ServerCopy

/-- The human status label derivation of `server-copy.js`'s
`track_order` case (lines 356–368): `order.fulfillment_status ||
'Unfulfilled'`, then `fulfilled → Delivered`, `partial → Partially
Shipped`, `Unfulfilled → Processing` (the dead `=== null` disjunct is
unreachable after the `||`). -/
def statusLabel (fulfillment : JVal) : String :=
  let raw := jsOrVal fulfillment "Unfulfilled"
  if raw = "fulfilled" then "Delivered"
  else if raw = "partial" then "Partially Shipped"
  else if raw = "Unfulfilled" then "Processing"
  else raw

/-- The status emoji of the same derivation. -/
def statusEmoji (fulfillment : JVal) : String :=
  let raw := jsOrVal fulfillment "Unfulfilled"
  if raw = "fulfilled" then "✅"
  else if raw = "partial" then "📮"
  else if raw = "Unfulfilled" then "⏳"
  else "📦"

/-- The payment label derivation (lines 371–383). -/
def paymentLabel (financial : JVal) : String :=
  let raw := jsOrVal financial "pending"
  if raw = "paid" then "Paid"
  else if raw = "pending" then "Payment Pending"
  else if raw = "refunded" then "Refunded"
  else raw

/-- The payment emoji of the same derivation. -/
def paymentEmoji (financial : JVal) : String :=
  let raw := jsOrVal financial "pending"
  if raw = "paid" then "✅"
  else if raw = "pending" then "⏳"
  else if raw = "refunded" then "🔄"
  else "💳"

/-- `Math.floor((Date.now() - orderDate.getTime()) / 86400000)`:
elapsed whole days since the order, as floor division on
epoch milliseconds. -/
def daysSince (nowMs createdAtMs : Int) : Int :=
  Int.fdiv (nowMs - createdAtMs) 86400000

/-- The suggestion chips of the found-order reply (`server-copy.js`
lines 442–452): a base of Browse Products/Help, `View Other Orders`
when more than one order came back, and `Return Order` exactly when the
label is `Delivered` and at most 30 days have passed. -/
def trackOrderSuggestions (numOrders : Nat) (statusText : String)
    (days : Int) : List String :=
  let s₀ := ["Browse Products", "Help"]
  let s₁ := if numOrders > 1 then "View Other Orders" :: s₀ else s₀
  if statusText = "Delivered" ∧ days ≤ 30 then "Return Order" :: s₁ else s₁

/-- The rendered item list (lines 386–393): up to 3 lines plus an
`...and N more` suffix; an empty list falls back to
`  • Items unavailable`. -/
def itemsListText (items : List LineItem) : String :=
  let lines := (items.take 3).map
    (fun item => "  • " ++ toString item.quantity ++ "x " ++ item.name)
  let joined := String.intercalate "\n" lines
  let base := if joined = "" then "  • Items unavailable" else joined
  let more :=
    if items.length > 3 then
      "\n  • ...and " ++ toString (items.length - 3) ++ " more item(s)"
    else ""
  base ++ more

/-- The found-order reply of `server-copy.js`'s `track_order` case
(lines 352–468), for the most recent order `order` out of `numOrders`
results, the resolved email and the current clock. -/
def trackOrderFound (order : Order) (numOrders : Nat) (email : JVal)
    (nowMs : Int) (shopDomain : String) : ActionResult :=
  let days := daysSince nowMs order.created_at_ms
  let daysText :=
    if days = 0 then "Today"
    else if days = 1 then "Yesterday"
    else toString days ++ " days ago"
  let message₀ :=
    statusEmoji order.fulfillment_status ++ " **Order #" ++ order.name ++
    "**\n\n**Status:** " ++ statusLabel order.fulfillment_status ++
    "\n**Payment:** " ++ paymentEmoji order.financial_status ++ " " ++
    paymentLabel order.financial_status ++ "\n**Total:** " ++
    order.total_price ++ " " ++ order.currency ++ "\n**Placed:** " ++
    localeDateString order.created_at_ms ++ " (" ++ daysText ++
    ")\n\n**Items:**\n" ++ itemsListText order.line_items
  let message :=
    match order.fulfillments.head? with
    | some tracking =>
        if jsTruthy tracking.tracking_number then
          message₀ ++ "\n\n📍 **Tracking:** " ++
            jsString tracking.tracking_number ++
            (if jsTruthy tracking.tracking_company then
              " (" ++ jsString tracking.tracking_company ++ ")"
            else "")
        else message₀
    | none => message₀
  let buttons₀ : List SButton :=
    if order.order_status_url = "" then []
    else [⟨"🔍 Track Shipment", "url", order.order_status_url⟩]
  let buttons :=
    if jsTruthy (JVal.num order.id) then
      buttons₀ ++ [⟨"📄 View Full Details", "url",
        (if order.order_status_url = "" then
          "https://" ++ shopDomain ++ "/account/orders/" ++
            jsOrStr (some order.token) (toString order.id)
        else order.order_status_url)⟩]
    else buttons₀
  { message := some message,
    remember := true,
    data := [("email", email), ("orderId", JVal.num order.id),
             ("orderName", JVal.str order.name),
             ("orderStatus", order.fulfillment_status),
             ("lastOrderDate", JVal.str order.created_at)],
    buttons := buttons,
    suggestions := trackOrderSuggestions numOrders
      (statusLabel order.fulfillment_status) days }

/-- The `track_order` case of `server-copy.js`'s `executeAction` (lines
294–469).  The email write-back here is `context.email = email` — this
variant's `getContext()` returns the live context object, so the
assignment mutates the conversation memory; the updated context is
returned alongside the result. -/
def trackOrderCase (userMessage : String) (context : Ctx)
    (orders : Option (List Order)) (nowMs : Int) (shopDomain : String) :
    ActionResult × Ctx :=
  let email₀ := getField context "email"
  let em : JVal × Ctx :=
    if !(jsTruthy email₀) then
      match findEmail userMessage.data with
      | some e =>
          let es := JVal.str (String.mk e)
          (es, setField context "email" es)
      | none => (email₀, context)
    else (email₀, context)
  if !(jsTruthy em.1) then
    ({ needsInfo := true, fieldNeeded := some "email",
       question := some "📧 What's your email address? I'll use it to find your order.",
       inputType := some "email",
       message := some "Email required to track your order",
       suggestions := ["Help", "Browse Products"] }, em.2)
  else
    match orders with
    | some (order :: rest) =>
        (trackOrderFound order (order :: rest).length em.1 nowMs shopDomain,
         em.2)
    | _ =>
        ({ message := some ("📭 **No Orders Found**\n\nI couldn't find any " ++
             "orders for **" ++ jsString em.1 ++ "**.\n\nPlease check:\n" ++
             "• Email spelling is correct\n• You've placed an order before\n" ++
             "• Order was placed on this store"),
           remember := true,
           data := [("email", em.1)],
           suggestions := ["Browse Products", "Try Another Email", "Help"] },
         em.2)

/-- The `add_cart` case of `server-copy.js`'s `executeAction` (lines
508–561).  Note: the email extracted from the message is used for the
turn but NOT written back into the context in this variant; the
context comes back unchanged. -/
def addCartCase (userMessage : String) (context : Ctx)
    (createdDraft : Option DraftOrder) : ActionResult × Ctx :=
  let email₀ := getField context "email"
  let email :=
    if !(jsTruthy email₀) then
      match findEmail userMessage.data with
      | some e => JVal.str (String.mk e)
      | none => email₀
    else email₀
  if !(jsTruthy email) then
    ({ needsInfo := true, fieldNeeded := some "email",
       question := some "📧 I need your email to add items to your cart",
       inputType := some "email",
       message := some "Email required" }, context)
  else
    match createdDraft with
    | none =>
        ({ message := some "⚠️ Could not add to cart. Please try again.",
           suggestions := ["Try Again", "Browse Products"] }, context)
    | some draft =>
        ({ message := some ("✅ **Cart Created!**\n\nReady to add items?\n" ++
             "Checkout URL: " ++ draft.invoice_url),
           remember := true,
           data := [("email", email), ("draftOrderId", JVal.num draft.id)],
           buttons := [⟨"Go to Checkout", "url", draft.invoice_url⟩],
           suggestions := ["Browse More", "View Cart"] }, context)

/-- `buildSalesIQResponse` of `server-copy.js` (lines 612–648).  This
variant has NO null guard: given `null`/`undefined` it dereferences
`actionResult.needsInfo` and throws a `TypeError`, modelled as
`Except.error`. -/
def buildSalesIQResponse (actionResult : Option ActionResult) :
    Except String WireResponse :=
  match actionResult with
  | none =>
      Except.error "TypeError: cannot read properties of null (reading needsInfo)"
  | some r =>
      if r.needsInfo then
        Except.ok
          { action := "context", context_id := r.fieldNeeded,
            questions := [buildQuestion r] }
      else
        Except.ok
          { action := "reply", replies := [r.message],
            suggestions := if r.suggestions.length > 0 then r.suggestions else [],
            buttons := if r.buttons.length > 0 then r.buttons else [] }

/-- The top-level catch of the zobot webhook in `server-copy.js` (lines
1169–1185): `res.json(...)` (HTTP 200) with the exception's message
embedded in the first reply line. -/
def zobotCatchHandler (errMessage : String) : HttpResponse :=
  { status := 200,
    action := "reply",
    replies := ["⚠️ An error occurred: " ++ errMessage,
                "Please try again or contact support if the issue persists."],
    suggestions := ["Try Again", "Browse Deals", "Help"] }

/-- The visitor email auto-save of the copy webhook (lines 1086–1091):
`if (visitor?.email && !memory.context.email)
  memory.remember({ email: visitor.email })`.
Because this variant's `remember` tests its SECOND argument, the
single-object call lands in the key/value branch and assigns
`undefined` under the key `"[object Object]"`. -/
def autoSaveVisitorEmail (visitorEmail : JVal) (ctx : Ctx) : Ctx :=
  if jsTruthy visitorEmail && !(jsTruthy (getField ctx "email")) then
    remember ctx (JVal.obj [("email", visitorEmail)]) JVal.undef
  else ctx

end ServerCopy

namespace ServerFixed

/-- `buildSalesIQResponse` of `server-fixed.js` (lines 730–776): the
null guard returns a generic error envelope, then the needs-info or
reply shapes. -/
def buildSalesIQResponse (actionResult : Option ActionResult) : WireResponse :=
  match actionResult with
  | none =>
      { action := "reply", replies := [some "An error occurred. Please try again."] }
  | some r =>
      if r.needsInfo then
        { action := "context", context_id := r.fieldNeeded,
          questions := [buildQuestion r] }
      else
        { action := "reply",
          replies := [some (jsOrStr r.message "No response")],
          cards := if r.cards.length > 0 then r.cards else [],
          suggestions := r.suggestions,
          buttons := r.buttons }

/-- The top-level catch of the zobot webhook in `server-fixed.js`
(lines 1174–1189): `res.status(500).json(...)` with the exception's
message embedded in the first reply line. -/
def zobotCatchHandler (errMessage : String) : HttpResponse :=
  { status := 500,
    action := "reply",
    replies := ["⚠️ An error occurred: " ++ errMessage,
                "Please try again or contact support."],
    suggestions := ["Help", "Browse Deals"] }

/-- The visitor-data auto-save of the fixed webhook (lines 1100–1111):
guarded `remember('email', ...)` and `remember('userName', ...)`
calls, each only when the visitor value is truthy and the context
field is still falsy. -/
def autoSaveVisitor (visitorEmail visitorName : JVal) (m : Memory) : Memory :=
  let m₁ :=
    if jsTruthy visitorEmail && !(jsTruthy (getField m.context "email")) then
      rememberMem m "email" visitorEmail
    else m
  if jsTruthy visitorName && !(jsTruthy (getField m₁.context "userName")) then
    rememberMem m₁ "userName" visitorName
  else m₁

/-- The action-result persistence of the fixed webhook (lines
1158–1164): when the result says `remember` (its `data` object is
always truthy), each data field is written through
`memory.remember(key, val)`. -/
def persistActionData (r : ActionResult) (m : Memory) : Memory :=
  if r.remember then
    r.data.foldl (fun mm kv => rememberMem mm kv.1 kv.2) m
  else m

/-- One full executor-plus-persistence turn of the fixed webhook
(lines 1113–1167, context write path only): read the context, run
`executeAction` (which may itself remember an extracted email), then
merge the result's data fields.  `addMessage` calls touch only the
message list, never the context. -/
def dispatchTurn (intent userMessage shopDomain adminToken : String)
    (api : ApiResponses) (m : Memory) : Memory :=
  let rm := executeAction intent userMessage m.context shopDomain adminToken m api
  persistActionData rm.1 rm.2

/-- The context-writing operations of the fixed dispatcher: visitor
auto-save (step 4) and an executor/persistence turn (steps 6–8). -/
inductive DispatcherStep : Memory → Memory → Prop
  | autoSave (visitorEmail visitorName : JVal) (m : Memory) :
      DispatcherStep m (autoSaveVisitor visitorEmail visitorName m)
  | turn (intent userMessage shopDomain adminToken : String)
      (api : ApiResponses) (m : Memory) :
      DispatcherStep m (dispatchTurn intent userMessage shopDomain adminToken api m)

end ServerFixed

/-!
General lemmas about the context model.
-/

/-- Reading after writing: `setField` affects exactly the written key. -/
theorem getField_setField (ctx : Ctx) (k k' : String) (v : JVal) :
    getField (setField ctx k v) k' = if k' = k then v else getField ctx k' := by
  induction ctx with
  | nil =>
      by_cases h : k' = k
      · subst h; simp [setField, getField]
      · simp [setField, getField, h, Ne.symm h]
  | cons kv rest ih =>
      obtain ⟨k₀, w⟩ := kv
      by_cases h₀ : k₀ = k
      · subst h₀
        by_cases h : k' = k₀
        · subst h; simp [setField, getField]
        · simp [setField, getField, h, Ne.symm h]
      · by_cases h : k' = k₀
        · subst h
          simp [setField, getField, h₀, Ne.symm h₀]
        · simp [setField, getField, h₀, h, Ne.symm h, ih]

/-- A truthy value is never `null`. -/
theorem jsTruthy_ne_null {v : JVal} (h : jsTruthy v = true) : v ≠ JVal.null := by
  intro hv
  subst hv
  simp [jsTruthy] at h

/-- `rememberMem` with a string key writes exactly that context field
(the object-merge branch of `remember` cannot fire on a string key). -/
theorem ServerFixed.getField_rememberMem (m : Memory) (k k' : String) (v : JVal) :
    getField (ServerFixed.rememberMem m k v).context k' =
      if k' = k then v else getField m.context k' := by
  simp [ServerFixed.rememberMem, ServerFixed.remember, typeofJS, toPropertyKey,
    getField_setField]

/-- `server-copy.js`'s `addMessage` always equals keeping the last 50
of the pushed list (dropping zero entries when at most 50). -/
theorem ServerCopy.addMessage_eq (messages : List ChatMessage) (m : ChatMessage) :
    ServerCopy.addMessage messages m =
      (messages ++ [m]).drop ((messages ++ [m]).length - 50) := by
  simp only [ServerCopy.addMessage]
  split
  · rfl
  · next h =>
      have h0 : (messages ++ [m]).length - 50 = 0 := by omega
      rw [h0, List.drop_zero]

/-!
Claim C1 — top-level error handling of the zobot webhook.
-/

/-- Claim C1, as stated, is false on the code: for the concrete
exception message `"boom"`, `server-fixed.js`'s catch responds with
HTTP status 500 (not 200), and `server-copy.js`'s catch (which does
respond 200) embeds the exception text in its first reply line. -/
theorem C1_counterexample :
    (ServerFixed.zobotCatchHandler "boom").status = 500 ∧
    (ServerCopy.zobotCatchHandler "boom").replies.head? =
      some "⚠️ An error occurred: boom" :=
  ⟨rfl, rfl⟩

/-- Claim C1 (amended): the top-level catch of the webhook always
produces a well-formed `action: "reply"` envelope with two reply lines
and suggestion chips, but the first reply line embeds the exception's
message in both variants; `server-copy.js` responds HTTP 200 while
`server-fixed.js` responds HTTP 500. -/
theorem C1_catch_envelope (errMessage : String) :
    (ServerCopy.zobotCatchHandler errMessage).status = 200 ∧
    (ServerCopy.zobotCatchHandler errMessage).action = "reply" ∧
    (ServerCopy.zobotCatchHandler errMessage).replies =
      ["⚠️ An error occurred: " ++ errMessage,
       "Please try again or contact support if the issue persists."] ∧
    (ServerCopy.zobotCatchHandler errMessage).suggestions ≠ [] ∧
    (ServerFixed.zobotCatchHandler errMessage).status = 500 ∧
    (ServerFixed.zobotCatchHandler errMessage).action = "reply" ∧
    (ServerFixed.zobotCatchHandler errMessage).replies =
      ["⚠️ An error occurred: " ++ errMessage,
       "Please try again or contact support."] ∧
    (ServerFixed.zobotCatchHandler errMessage).suggestions ≠ [] := by
  simp [ServerCopy.zobotCatchHandler, ServerFixed.zobotCatchHandler]

/-!
Claim C6 — boundedness of the stored message list.
-/

/-- Claim C6, as stated, is false on the code: `server-fixed.js`'s
`addMessage` (and the dashboard variant's) never truncates, so 51
successive calls starting from an empty list leave 51 stored
messages. -/
theorem C6_counterexample :
    ((List.range 51).foldl
      (fun ms i => ServerFixed.addMessage ms
        ⟨"user", JVal.str "hi", toString i, []⟩) []).length = 51 := by
  rfl

/-- Claim C6 (amended): in `server-copy.js` the claim holds —
`addMessage` appends the new message and keeps exactly the most recent
50 entries, so the stored list's length is `min (previous + 1) 50`;
`server-fixed.js` and the dashboard variant instead append without any
truncation. -/
theorem C6_addMessage_bounded (messages : List ChatMessage) (m : ChatMessage) :
    ServerCopy.addMessage messages m =
      (messages ++ [m]).drop ((messages ++ [m]).length - 50) ∧
    (ServerCopy.addMessage messages m).length = min (messages.length + 1) 50 ∧
    ServerFixed.addMessage messages m = messages ++ [m] := by
  refine ⟨ServerCopy.addMessage_eq messages m, ?_, rfl⟩
  rw [ServerCopy.addMessage_eq messages m, List.length_drop]
  simp only [List.length_append, List.length_cons, List.length_nil]
  omega

/-!
Claim C8 — totality of the response builder on a missing action result.
-/

/-- Claim C8, as stated, is false on the code: `server-copy.js`'s
`buildSalesIQResponse` has no null guard and throws a `TypeError` when
given a missing action result. -/
theorem C8_counterexample :
    ServerCopy.buildSalesIQResponse none =
      Except.error
        "TypeError: cannot read properties of null (reading needsInfo)" := by
  rfl

/-- Claim C8 (amended): `server-fixed.js`'s `buildSalesIQResponse` is
total on a missing action result, returning the generic error reply
envelope; `server-copy.js`'s variant instead throws and never produces
an envelope there. -/
theorem C8_null_action_result :
    ServerFixed.buildSalesIQResponse none =
      { action := "reply",
        replies := [some "An error occurred. Please try again."] } ∧
    ∀ r : WireResponse, ServerCopy.buildSalesIQResponse none ≠ Except.ok r := by
  refine ⟨rfl, fun r h => ?_⟩
  simp [ServerCopy.buildSalesIQResponse] at h

/-!
Claim C3 — the two calling conventions of `remember` and their
round-trips.
-/

/-- Claim C3, as stated, is false on `server-copy.js`: its `remember`
tests the SECOND argument for being an object, so the single-map call
`remember({email: "a@b.com"})` falls into the key/value branch,
assigns `undefined` under the coerced key `"[object Object]"`, and
leaves `context.email` at `null`. -/
theorem C3_counterexample :
    getField (ServerCopy.remember ServerCopy.initialContext
        (JVal.obj [("email", JVal.str "a@b.com")]) JVal.undef) "email" ≠
      JVal.str "a@b.com" ∧
    getField (ServerCopy.remember ServerCopy.initialContext
        (JVal.obj [("email", JVal.str "a@b.com")]) JVal.undef) "email" =
      JVal.null ∧
    getField (ServerCopy.remember ServerCopy.initialContext
        (JVal.obj [("email", JVal.str "a@b.com")]) JVal.undef)
        "[object Object]" = JVal.undef := by
  have base : getField (ServerCopy.remember ServerCopy.initialContext
      (JVal.obj [("email", JVal.str "a@b.com")]) JVal.undef) "email" =
      JVal.null := rfl
  refine ⟨fun h => ?_, base, rfl⟩
  rw [base] at h
  exact JVal.noConfusion h

/-- Claim C3 (amended): in `server-fixed.js` both calling conventions
round-trip as claimed — a single-map call merges each field into the
context (`remember({email: e})` then reading `email` yields `e`), and
a key/value call sets exactly that field (`remember(k, v)` then
`recall(k)` yields `v`).  In `server-copy.js` only the key/value
convention round-trips (shown for the callers' value shapes); the
single-map convention is broken there, and the map-merge branch fires
on the second argument instead. -/
theorem C3_remember_roundtrip :
    (∀ (ctx : Ctx) (e : String),
      getField (ServerFixed.remember ctx
        (JVal.obj [("email", JVal.str e)]) JVal.undef) "email" =
        JVal.str e) ∧
    (∀ (ctx : Ctx) (k : String) (v : JVal),
      ServerFixed.recallKey (ServerFixed.remember ctx (JVal.str k) v) k = v) ∧
    (∀ (ctx : Ctx) (k : String) (n : Int),
      ServerCopy.recallKey
        (ServerCopy.remember ctx (JVal.str k) (JVal.num n)) k = JVal.num n) ∧
    (∀ (ctx : Ctx) (k : String) (s : String),
      ServerCopy.recallKey
        (ServerCopy.remember ctx (JVal.str k) (JVal.str s)) k = JVal.str s) := by
  refine ⟨fun ctx e => ?_, fun ctx k v => ?_, fun ctx k n => ?_, fun ctx k s => ?_⟩
  · simp [ServerFixed.remember, typeofJS, isNullJS, isUndefJS, objFields,
      mergeFields, getField_setField]
  · simp [ServerFixed.recallKey, ServerFixed.remember, typeofJS, toPropertyKey,
      getField_setField]
  · simp [ServerCopy.recallKey, ServerCopy.remember, typeofJS, toPropertyKey,
      getField_setField]
  · simp [ServerCopy.recallKey, ServerCopy.remember, typeofJS, toPropertyKey,
      getField_setField]

/-!
Claim C2 — first match wins in the classifier's declaration order.
-/

/-- The first-match loop of `detectIntent`: if entry `i` matches and
no earlier entry does, the loop returns entry `i`'s name and
confidence. -/
theorem detectFirst_first_match (l : List IntentEntry) (m : List Char) :
    ∀ (i : Nat) (hi : i < l.length),
      testAlts (l.get ⟨i, hi⟩).alts m = true →
      (∀ k (hk : k < l.length), k < i →
        testAlts (l.get ⟨k, hk⟩).alts m = false) →
      detectFirst l m = ((l.get ⟨i, hi⟩).name, (l.get ⟨i, hi⟩).confidence) := by
  induction l with
  | nil => intro i hi; simp at hi
  | cons e rest ih =>
      intro i hi htest hmin
      cases i with
      | zero =>
          simp only [List.get] at htest ⊢
          simp [detectFirst, htest]
      | succ i' =>
          have h0 : testAlts e.alts m = false := by
            have := hmin 0 (by omega) (by omega)
            simpa using this
          simp only [detectFirst, h0, Bool.false_eq_true, if_false]
          exact ih i' (by simp at hi; omega) (by simpa using htest)
            (fun k hk hki => by
              have := hmin (k + 1) (by omega) (by omega)
              simpa using this)

/-- Claim C2: for every message matching the patterns of two or more
intents of `server-fixed.js`'s `detectIntent` enumeration, the
classifier returns the earliest matching entry in declaration order,
with that entry's fixed confidence. -/
theorem C2_first_match_wins (userMessage : String) (i j : Nat)
    (hi : i < ServerFixed.intents.length) (hj : j < ServerFixed.intents.length)
    (_hij : i < j)
    (hti : testAlts (ServerFixed.intents.get ⟨i, hi⟩).alts
      (jsTrim (userMessage.data.map Char.toLower)) = true)
    (_htj : testAlts (ServerFixed.intents.get ⟨j, hj⟩).alts
      (jsTrim (userMessage.data.map Char.toLower)) = true)
    (hmin : ∀ k (hk : k < ServerFixed.intents.length), k < i →
      testAlts (ServerFixed.intents.get ⟨k, hk⟩).alts
        (jsTrim (userMessage.data.map Char.toLower)) = false) :
    ServerFixed.detectIntent userMessage =
      ((ServerFixed.intents.get ⟨i, hi⟩).name,
       (ServerFixed.intents.get ⟨i, hi⟩).confidence) := by
  unfold ServerFixed.detectIntent
  exact detectFirst_first_match ServerFixed.intents
    (jsTrim (userMessage.data.map Char.toLower)) i hi hti hmin

/-- Witness for C2: `"track my return"` matches both `track_order`
(index 0) and `return_order` (index 4); the classifier returns
`track_order` with confidence 0.95. -/
theorem C2_first_match_wins_witness :
    ServerFixed.detectIntent "track my return" = ("track_order", 95/100) := by
  have h := C2_first_match_wins "track my return" 0 4
    (by decide) (by decide) (by decide)
    (by decide) (by decide)
    (fun k hk hki => absurd hki (Nat.not_lt_zero k))
  exact h

/-!
Claim C9 — the displayed discount percentage.
-/

/-- Claim C9: whenever the compare-at price string parses to a number
strictly greater than the price, the badge is shown and the displayed
percentage is `round((compare − price) / compare · 100)`; when the
compare-at price is not greater, or is absent (`null`/`undefined`), no
badge is shown.  Prices are modelled by the rational numbers their
decimal strings parse to; `toNumberQ` is the coercion used by the
arithmetic and `parseFloatQ` the one used by the guard (they agree on
the API's well-formed decimal price strings). -/
theorem C9_discount_formula (ps cs : String) (p c : ℚ)
    (hp : toNumberQ ps = some p) (hc : toNumberQ cs = some c)
    (hpf : parseFloatQ ps = some p) (hcf : parseFloatQ cs = some c)
    (hcs : cs ≠ "") :
    (c > p →
      discountShown ps (JVal.str cs) = true ∧
      discountPct cs ps = some (round (((c - p) / c) * 100)) ∧
      cardSubtitle ps (JVal.str cs) =
        "$" ++ ps ++ " 🔥 Save " ++
          toString (round (((c - p) / c) * 100)) ++ "%") ∧
    (¬ c > p → discountShown ps (JVal.str cs) = false) ∧
    discountShown ps JVal.null = false ∧
    discountShown ps JVal.undef = false := by
  have hshown : discountShown ps (JVal.str cs) = decide (c > p) := by
    simp [discountShown, jsTruthy, jsString, toPropertyKey, jsGtFloat, hcs,
      hpf, hcf]
  have hpct : discountPct cs ps = some (round (((c - p) / c) * 100)) := by
    simp [discountPct, hp, hc]
  refine ⟨fun hgt => ⟨?_, hpct, ?_⟩, fun hle => ?_, rfl, rfl⟩
  · rw [hshown]; simp [hgt]
  · have h1 : discountShown ps (JVal.str cs) = true := by rw [hshown]; simp [hgt]
    simp [cardSubtitle, h1, jsString, toPropertyKey, hpct, showJsInt]
  · rw [hshown]; simp [hle]

/-- Witness for C9: price `"80.00"` with compare-at `"100.00"` shows a
20% saving, and an absent compare-at shows no badge. -/
theorem C9_discount_formula_witness :
    discountShown "80.00" (JVal.str "100.00") = true ∧
    discountPct "100.00" "80.00" = some 20 ∧
    discountShown "80.00" JVal.null = false := by
  have hp : toNumberQ "80.00" = some 80 := by
    have h : toNumberQ "80.00" =
        some (decPartsValue ⟨false, ['8', '0'], ['0', '0']⟩) := rfl
    have d1 : digitsVal ['8', '0'] = 80 := by decide
    have d2 : digitsVal ['0', '0'] = 0 := by decide
    rw [h]; norm_num [decPartsValue, d1, d2]
  have hc : toNumberQ "100.00" = some 100 := by
    have h : toNumberQ "100.00" =
        some (decPartsValue ⟨false, ['1', '0', '0'], ['0', '0']⟩) := rfl
    have d1 : digitsVal ['1', '0', '0'] = 100 := by decide
    have d2 : digitsVal ['0', '0'] = 0 := by decide
    rw [h]; norm_num [decPartsValue, d1, d2]
  have hpf : parseFloatQ "80.00" = some 80 := by
    have h : parseFloatQ "80.00" =
        some (decPartsValue ⟨false, ['8', '0'], ['0', '0']⟩) := rfl
    have d1 : digitsVal ['8', '0'] = 80 := by decide
    have d2 : digitsVal ['0', '0'] = 0 := by decide
    rw [h]; norm_num [decPartsValue, d1, d2]
  have hcf : parseFloatQ "100.00" = some 100 := by
    have h : parseFloatQ "100.00" =
        some (decPartsValue ⟨false, ['1', '0', '0'], ['0', '0']⟩) := rfl
    have d1 : digitsVal ['1', '0', '0'] = 100 := by decide
    have d2 : digitsVal ['0', '0'] = 0 := by decide
    rw [h]; norm_num [decPartsValue, d1, d2]
  have h := C9_discount_formula "80.00" "100.00" 80 100 hp hc hpf hcf
    (by decide)
  have hgt : (100 : ℚ) > 80 := by norm_num
  have hround : round ((((100 : ℚ) - 80) / 100) * 100) = 20 := by norm_num
  refine ⟨(h.1 hgt).1, ?_, h.2.2.1⟩
  rw [(h.1 hgt).2.1, hround]

/-!
Claim C5 — the "Return Order" suggestion chip.
-/

/-- Claim C5, as stated, is false on `server-fixed.js`: its
`track_order` case returns the constant chips
`["View Details", "Return Order", "Browse Products"]`, so an order
that is not delivered (null fulfillment state, here 100 days old)
still offers "Return Order". -/
theorem C5_counterexample :
    "Return Order" ∈
      (ServerFixed.trackOrderCase "where is my order"
        [("email", JVal.str "jane@x.com")]
        ⟨[], [("email", JVal.str "jane@x.com")]⟩
        (some [{ id := 1001, name := "1001" }])).1.suggestions ∧
    ServerCopy.statusLabel
      ({ id := 1001, name := "1001" } : Order).fulfillment_status ≠
      "Delivered" ∧
    ServerCopy.daysSince 8640000000 0 > 30 := by
  have hs : (ServerFixed.trackOrderCase "where is my order"
      [("email", JVal.str "jane@x.com")]
      ⟨[], [("email", JVal.str "jane@x.com")]⟩
      (some [{ id := 1001, name := "1001" }])).1.suggestions =
      ["View Details", "Return Order", "Browse Products"] := rfl
  refine ⟨?_, ?_, ?_⟩
  · rw [hs]; simp
  · intro h
    have : ServerCopy.statusLabel JVal.null = "Processing" := rfl
    rw [this] at h
    simp at h
  · decide

/-- Claim C5 (amended): in `server-copy.js`'s executor the claim holds
— the found-order reply's chips include "Return Order" exactly when
the derived status label is "Delivered" and at most 30 days have
elapsed; in `server-fixed.js`'s executor the chips of a found order
are constant and always include "Return Order". -/
theorem C5_return_order_suggestions :
    (∀ (numOrders : Nat) (statusText : String) (days : Int),
      "Return Order" ∈
          ServerCopy.trackOrderSuggestions numOrders statusText days ↔
        (statusText = "Delivered" ∧ days ≤ 30)) ∧
    (∀ (order : Order) (numOrders : Nat) (email : JVal) (nowMs : Int)
        (shopDomain : String),
      (ServerCopy.trackOrderFound order numOrders email nowMs
          shopDomain).suggestions =
        ServerCopy.trackOrderSuggestions numOrders
          (ServerCopy.statusLabel order.fulfillment_status)
          (ServerCopy.daysSince nowMs order.created_at_ms)) ∧
    (∀ (userMessage : String) (ctx : Ctx) (memory : Memory) (order : Order)
        (rest : List Order),
      jsTruthy (getField ctx "email") = true →
      (ServerFixed.trackOrderCase userMessage ctx memory
          (some (order :: rest))).1.suggestions =
        ["View Details", "Return Order", "Browse Products"]) := by
  refine ⟨fun n st d => ?_, fun order n email nowMs shop => rfl,
    fun msg ctx mem order rest h => ?_⟩
  · unfold ServerCopy.trackOrderSuggestions
    by_cases hc : st = "Delivered" ∧ d ≤ 30
    · simp [hc]
    · rw [if_neg hc]
      by_cases hn : n > 1 <;> simp [hn, hc]
  · unfold ServerFixed.trackOrderCase ServerFixed.resolveEmail
    simp [h]

/-- Witness for C5 (amended): a delivered 5-day-old order offers
"Return Order" in the copy executor, and a concrete found-order reply
of the fixed executor carries the constant chips. -/
theorem C5_return_order_suggestions_witness :
    "Return Order" ∈ ServerCopy.trackOrderSuggestions 1 "Delivered" 5 ∧
    (ServerFixed.trackOrderCase "where is my order"
        [("email", JVal.str "jane@x.com")]
        ⟨[], [("email", JVal.str "jane@x.com")]⟩
        (some [{ id := 5, name := "1002" }])).1.suggestions =
      ["View Details", "Return Order", "Browse Products"] := by
  refine ⟨(C5_return_order_suggestions.1 1 "Delivered" 5).mpr
    ⟨rfl, by decide⟩, ?_⟩
  exact C5_return_order_suggestions.2.2 "where is my order"
    [("email", JVal.str "jane@x.com")]
    ⟨[], [("email", JVal.str "jane@x.com")]⟩
    { id := 5, name := "1002" } [] (by decide)

/-!
Claim C4 — email resolution in the executor (context first, then
message extraction with write-back, then needs-info).
-/

/-- A successful email-regex match has positive length. -/
theorem matchEmailAt_pos (l : List Char) (len : Nat)
    (h : matchEmailAt l = some len) : 1 ≤ len := by
  unfold matchEmailAt at h
  dsimp only at h
  split at h
  · exact absurd h (by simp)
  · split at h
    · split at h
      · injection h with h'
        omega
      · exact absurd h (by simp)
    · exact absurd h (by simp)

/-- An extracted email is never the empty string. -/
theorem findEmail_some_ne_nil (l : List Char) (e : List Char)
    (h : findEmail l = some e) : e ≠ [] := by
  induction l with
  | nil => simp [findEmail] at h
  | cons c rest ih =>
      unfold findEmail at h
      split at h
      · next len hm =>
          injection h with h'
          subst h'
          have hp := matchEmailAt_pos _ _ hm
          obtain ⟨n, rfl⟩ := Nat.exists_eq_add_of_le hp
          simp [List.take]
      · exact ih h

/-- A non-empty string value is truthy. -/
theorem strTruthy_of_ne_nil (e : List Char) (h : e ≠ []) :
    jsTruthy (JVal.str (String.mk e)) = true := by
  have hne : String.mk e ≠ "" := by
    intro hc
    exact h (by simpa using congrArg String.data hc)
  simp [jsTruthy, hne]

/-- With a truthy context email, `resolveEmail` uses it and leaves the
memory untouched. -/
theorem ServerFixed.resolveEmail_truthy (msg : String) (ctx : Ctx) (mem : Memory)
    (h : jsTruthy (getField ctx "email") = true) :
    ServerFixed.resolveEmail msg ctx mem = (getField ctx "email", mem) := by
  simp [ServerFixed.resolveEmail, h]

/-- With a falsy context email and an email in the message,
`resolveEmail` extracts it and remembers it. -/
theorem ServerFixed.resolveEmail_extract (msg : String) (ctx : Ctx) (mem : Memory)
    (e : List Char) (h : jsTruthy (getField ctx "email") = false)
    (hf : findEmail msg.data = some e) :
    ServerFixed.resolveEmail msg ctx mem =
      (JVal.str (String.mk e),
       ServerFixed.rememberMem mem "email" (JVal.str (String.mk e))) := by
  simp [ServerFixed.resolveEmail, h, hf]

/-- With a falsy context email and no email in the message,
`resolveEmail` yields the falsy value and leaves the memory
untouched. -/
theorem ServerFixed.resolveEmail_nomatch (msg : String) (ctx : Ctx) (mem : Memory)
    (h : jsTruthy (getField ctx "email") = false)
    (hf : findEmail msg.data = none) :
    ServerFixed.resolveEmail msg ctx mem = (getField ctx "email", mem) := by
  simp [ServerFixed.resolveEmail, h, hf]

/-- The memory returned by the `track_order` case is always the one
produced by the email-resolution phase. -/
theorem ServerFixed.trackOrderCase_mem (msg : String) (ctx : Ctx) (mem : Memory)
    (orders : Option (List Order)) :
    (ServerFixed.trackOrderCase msg ctx mem orders).2 =
      (ServerFixed.resolveEmail msg ctx mem).2 := by
  unfold ServerFixed.trackOrderCase
  dsimp only
  cases h : jsTruthy (ServerFixed.resolveEmail msg ctx mem).1 <;>
    simp only [h, Bool.not_false, Bool.not_true, if_true, Bool.false_eq_true,
      if_false, Bool.true_eq_false] <;>
    (repeat' split) <;> rfl

/-- The `add_cart` case never changes the context's email field after
the email-resolution phase (its only further write is to
`draftOrderId`). -/
theorem ServerFixed.addCartCase_mem_email (msg : String) (ctx : Ctx) (mem : Memory)
    (api : ApiResponses) :
    getField (ServerFixed.addCartCase msg ctx mem api).2.context "email" =
      getField (ServerFixed.resolveEmail msg ctx mem).2.context "email" := by
  unfold ServerFixed.addCartCase
  dsimp only
  cases h : jsTruthy (ServerFixed.resolveEmail msg ctx mem).1 <;>
    simp only [h, Bool.not_false, Bool.not_true, if_true, Bool.false_eq_true,
      if_false, Bool.true_eq_false] <;>
    (repeat' split) <;>
    simp [ServerFixed.getField_rememberMem]

/-- With a truthy resolved email, the `add_cart` case never returns a
needs-info result. -/
theorem ServerFixed.addCartCase_needsInfo (msg : String) (ctx : Ctx) (mem : Memory)
    (api : ApiResponses)
    (h : jsTruthy (ServerFixed.resolveEmail msg ctx mem).1 = true) :
    (ServerFixed.addCartCase msg ctx mem api).1.needsInfo = false := by
  unfold ServerFixed.addCartCase
  dsimp only
  simp only [h, Bool.not_true, Bool.false_eq_true, if_false]
  (repeat' split) <;> rfl

/-- With a truthy resolved email, the `track_order` case never returns
a needs-info result. -/
theorem ServerFixed.trackOrderCase_needsInfo (msg : String) (ctx : Ctx)
    (mem : Memory) (orders : Option (List Order))
    (h : jsTruthy (ServerFixed.resolveEmail msg ctx mem).1 = true) :
    (ServerFixed.trackOrderCase msg ctx mem orders).1.needsInfo = false := by
  unfold ServerFixed.trackOrderCase
  dsimp only
  simp only [h, Bool.not_true, Bool.false_eq_true, if_false]
  (repeat' split) <;> rfl

/-- Claim C4 (amended; it holds as stated for `server-fixed.js`, whose
`track_order` and `add_cart` cases both use `resolveEmail`): the
executor checks `context.email` first; when it is absent it extracts
an email token from the message and writes it back into the
conversation context before proceeding (and then never asks for the
email); only when neither source yields an email does it return a
needs-info result asking for the email with input type `email`.  In
`server-copy.js`, `track_order` behaves the same (via a live-context
assignment) but `add_cart` uses the extracted email without writing it
back — see the counterexample. -/
theorem C4_email_resolution :
    (∀ (msg : String) (ctx : Ctx) (mem : Memory),
      jsTruthy (getField ctx "email") = true →
        ServerFixed.resolveEmail msg ctx mem = (getField ctx "email", mem)) ∧
    (∀ (msg : String) (ctx : Ctx) (mem : Memory) (e : List Char),
      jsTruthy (getField ctx "email") = false →
      findEmail msg.data = some e →
        ServerFixed.resolveEmail msg ctx mem =
          (JVal.str (String.mk e),
           ServerFixed.rememberMem mem "email" (JVal.str (String.mk e))) ∧
        getField (ServerFixed.resolveEmail msg ctx mem).2.context "email" =
          JVal.str (String.mk e) ∧
        (∀ orders,
          (ServerFixed.trackOrderCase msg ctx mem orders).1.needsInfo = false ∧
          getField (ServerFixed.trackOrderCase msg ctx mem
            orders).2.context "email" = JVal.str (String.mk e)) ∧
        (∀ api,
          (ServerFixed.addCartCase msg ctx mem api).1.needsInfo = false ∧
          getField (ServerFixed.addCartCase msg ctx mem
            api).2.context "email" = JVal.str (String.mk e))) ∧
    (∀ (msg : String) (ctx : Ctx) (mem : Memory),
      jsTruthy (getField ctx "email") = false →
      findEmail msg.data = none →
        (∀ orders, ServerFixed.trackOrderCase msg ctx mem orders =
          ({ needsInfo := true, fieldNeeded := some "email",
             question := some "📧 What's your email to find your order?",
             inputType := some "email" }, mem)) ∧
        (∀ api, ServerFixed.addCartCase msg ctx mem api =
          ({ needsInfo := true, fieldNeeded := some "email",
             question := some "📧 I need your email to add items to your cart",
             inputType := some "email" }, mem))) := by
  refine ⟨ServerFixed.resolveEmail_truthy, ?_, ?_⟩
  · intro msg ctx mem e h hf
    have hre := ServerFixed.resolveEmail_extract msg ctx mem e h hf
    have ht : jsTruthy (ServerFixed.resolveEmail msg ctx mem).1 = true := by
      rw [hre]
      exact strTruthy_of_ne_nil e (findEmail_some_ne_nil _ _ hf)
    refine ⟨hre, ?_, fun orders => ⟨?_, ?_⟩, fun api => ⟨?_, ?_⟩⟩
    · rw [hre]
      simp [ServerFixed.getField_rememberMem]
    · exact ServerFixed.trackOrderCase_needsInfo msg ctx mem orders ht
    · rw [ServerFixed.trackOrderCase_mem, hre]
      simp [ServerFixed.getField_rememberMem]
    · exact ServerFixed.addCartCase_needsInfo msg ctx mem api ht
    · rw [ServerFixed.addCartCase_mem_email, hre]
      simp [ServerFixed.getField_rememberMem]
  · intro msg ctx mem h hf
    have hre := ServerFixed.resolveEmail_nomatch msg ctx mem h hf
    constructor
    · intro orders
      unfold ServerFixed.trackOrderCase
      dsimp only
      rw [hre]
      simp [h]
    · intro api
      unfold ServerFixed.addCartCase
      dsimp only
      rw [hre]
      simp [h]

/-- Witness for C4: `"my email is jane.doe@example.com please check"`
resolves and persists `jane.doe@example.com` starting from a context
whose email is null. -/
theorem C4_email_resolution_witness :
    findEmail "my email is jane.doe@example.com please check".data =
      some "jane.doe@example.com".data ∧
    ServerFixed.resolveEmail "my email is jane.doe@example.com please check"
        [("email", JVal.null)] ⟨[], [("email", JVal.null)]⟩ =
      (JVal.str "jane.doe@example.com",
       ServerFixed.rememberMem ⟨[], [("email", JVal.null)]⟩ "email"
         (JVal.str "jane.doe@example.com")) ∧
    getField (ServerFixed.resolveEmail
        "my email is jane.doe@example.com please check"
        [("email", JVal.null)] ⟨[], [("email", JVal.null)]⟩).2.context
        "email" = JVal.str "jane.doe@example.com" := by
  have h1 : jsTruthy (getField ([("email", JVal.null)] : Ctx) "email") =
      false := rfl
  have h2 : findEmail "my email is jane.doe@example.com please check".data =
      some "jane.doe@example.com".data := by decide
  obtain ⟨hre, hctx, -, -⟩ :=
    C4_email_resolution.2.1 "my email is jane.doe@example.com please check"
      [("email", JVal.null)] ⟨[], [("email", JVal.null)]⟩
      "jane.doe@example.com".data h1 h2
  exact ⟨h2, hre, hctx⟩

/-- Claim C4, as stated, is false on `server-copy.js`'s `add_cart`
case: with a null context email and an email in the message, the turn
proceeds (no needs-info; the extracted email even appears in the
result's data), but the context comes back unchanged — the extracted
email is never written back. -/
theorem C4_counterexample :
    (ServerCopy.addCartCase "add widget a@b.com" [("email", JVal.null)]
        (some { id := 7, invoice_url := "https://x/inv" })).1.needsInfo =
      false ∧
    (ServerCopy.addCartCase "add widget a@b.com" [("email", JVal.null)]
        (some { id := 7, invoice_url := "https://x/inv" })).2 =
      [("email", JVal.null)] ∧
    ("email", JVal.str "a@b.com") ∈
      (ServerCopy.addCartCase "add widget a@b.com" [("email", JVal.null)]
        (some { id := 7, invoice_url := "https://x/inv" })).1.data := by
  refine ⟨rfl, rfl, ?_⟩
  have hd : (ServerCopy.addCartCase "add widget a@b.com"
      [("email", JVal.null)]
      (some { id := 7, invoice_url := "https://x/inv" })).1.data =
      [("email", JVal.str "a@b.com"), ("draftOrderId", JVal.num 7)] := rfl
  rw [hd]
  exact List.mem_cons_self _ _

/-!
Claim C7 — once set, `context.email` is never overwritten with null.
-/

/-- The email-resolution phase never nulls the stored email. -/
theorem ServerFixed.resolveEmail_mem_ne_null (msg : String) (ctx : Ctx)
    (mem : Memory) (h : getField mem.context "email" ≠ JVal.null) :
    getField (ServerFixed.resolveEmail msg ctx mem).2.context "email" ≠
      JVal.null := by
  unfold ServerFixed.resolveEmail
  dsimp only
  cases ht : jsTruthy (getField ctx "email")
  · cases hf : findEmail msg.data
    · simpa [ht, hf] using h
    · simp [ht, hf, ServerFixed.getField_rememberMem]
  · simpa [ht] using h

/-- Every email field in a `track_order` result's persisted data is
the resolved (truthy) email, never null. -/
theorem ServerFixed.trackOrderCase_data (msg : String) (ctx : Ctx)
    (mem : Memory) (orders : Option (List Order)) :
    ∀ v, ("email", v) ∈ (ServerFixed.trackOrderCase msg ctx mem orders).1.data →
      v ≠ JVal.null := by
  unfold ServerFixed.trackOrderCase
  dsimp only
  cases ht : jsTruthy (ServerFixed.resolveEmail msg ctx mem).1 <;>
    simp only [ht, Bool.not_false, Bool.not_true, if_true, Bool.false_eq_true,
      if_false, Bool.true_eq_false]
  · intro v hv
    simp at hv
  · split <;> intro v hv
    · simp at hv
      subst hv
      exact jsTruthy_ne_null ht
    · simp at hv

/-- Every email field in an `add_cart` result's persisted data is the
resolved (truthy) email, never null. -/
theorem ServerFixed.addCartCase_data (msg : String) (ctx : Ctx)
    (mem : Memory) (api : ApiResponses) :
    ∀ v, ("email", v) ∈ (ServerFixed.addCartCase msg ctx mem api).1.data →
      v ≠ JVal.null := by
  unfold ServerFixed.addCartCase
  dsimp only
  cases ht : jsTruthy (ServerFixed.resolveEmail msg ctx mem).1 <;>
    simp only [ht, Bool.not_false, Bool.not_true, if_true, Bool.false_eq_true,
      if_false, Bool.true_eq_false]
  · intro v hv
    simp at hv
  · (repeat' split) <;> intro v hv <;>
      simp [ServerFixed.addCartSuccess] at hv <;>
      (subst hv; exact jsTruthy_ne_null ht)

/-- Folding `remember` over data whose email entries are non-null
preserves a non-null stored email. -/
theorem ServerFixed.foldRemember_email_ne_null :
    ∀ (data : List (String × JVal)) (m : Memory),
      (∀ v, ("email", v) ∈ data → v ≠ JVal.null) →
      getField m.context "email" ≠ JVal.null →
      getField ((data.foldl
        (fun mm kv => ServerFixed.rememberMem mm kv.1 kv.2) m)).context
        "email" ≠ JVal.null := by
  intro data
  induction data with
  | nil => intro m _ h; exact h
  | cons kv rest ih =>
      intro m hdata h
      obtain ⟨k, v⟩ := kv
      simp only [List.foldl_cons]
      apply ih
      · intro v' hv'
        exact hdata v' (List.mem_cons_of_mem _ hv')
      · rw [ServerFixed.getField_rememberMem]
        by_cases hk : "email" = k
        · subst hk
          simp only [if_pos rfl]
          exact hdata v (by simp)
        · rw [if_neg hk]
          exact h

/-- Action-result persistence preserves a non-null stored email when
the result's data carries no null email. -/
theorem ServerFixed.persist_email_ne_null (r : ActionResult) (m : Memory)
    (hdata : ∀ v, ("email", v) ∈ r.data → v ≠ JVal.null)
    (h : getField m.context "email" ≠ JVal.null) :
    getField (ServerFixed.persistActionData r m).context "email" ≠
      JVal.null := by
  unfold ServerFixed.persistActionData
  split
  · exact ServerFixed.foldRemember_email_ne_null r.data m hdata h
  · exact h

/-- Visitor auto-save writes the email only when the visitor value is
truthy, so it preserves a non-null stored email. -/
theorem ServerFixed.autoSave_email_ne_null (ve vn : JVal) (m : Memory)
    (h : getField m.context "email" ≠ JVal.null) :
    getField (ServerFixed.autoSaveVisitor ve vn m).context "email" ≠
      JVal.null := by
  unfold ServerFixed.autoSaveVisitor
  dsimp only
  by_cases h1 : (jsTruthy ve && !jsTruthy (getField m.context "email")) = true
  · have hve : jsTruthy ve = true := by
      have h1' := h1
      simp only [Bool.and_eq_true] at h1'
      exact h1'.1
    rw [if_pos h1]
    split
    · rw [ServerFixed.getField_rememberMem]
      simp only [String.reduceEq, if_false]
      rw [ServerFixed.getField_rememberMem]
      simp only [if_pos rfl]
      exact jsTruthy_ne_null hve
    · rw [ServerFixed.getField_rememberMem]
      simp only [if_pos rfl]
      exact jsTruthy_ne_null hve
  · rw [if_neg h1]
    split
    · rw [ServerFixed.getField_rememberMem]
      simp only [String.reduceEq, if_false]
      exact h
    · exact h

/-- The executor itself (before persistence) preserves a non-null
stored email in every intent branch. -/
theorem ServerFixed.executeAction_mem_ne_null (intent msg shop token : String)
    (mem : Memory) (api : ApiResponses)
    (h : getField mem.context "email" ≠ JVal.null) :
    getField (ServerFixed.executeAction intent msg mem.context shop token
      mem api).2.context "email" ≠ JVal.null := by
  unfold ServerFixed.executeAction
  split
  · exact h
  · split
    · rw [ServerFixed.trackOrderCase_mem]
      exact ServerFixed.resolveEmail_mem_ne_null msg mem.context mem h
    · exact h
    · rw [ServerFixed.addCartCase_mem_email]
      exact ServerFixed.resolveEmail_mem_ne_null msg mem.context mem h
    · exact h
    · exact h
    · exact h

/-- No intent branch ever puts a null email into the result's
persisted data. -/
theorem ServerFixed.executeAction_data_email (intent msg shop token : String)
    (mem : Memory) (api : ApiResponses) :
    ∀ v, ("email", v) ∈ (ServerFixed.executeAction intent msg mem.context
      shop token mem api).1.data → v ≠ JVal.null := by
  unfold ServerFixed.executeAction
  split
  · intro v hv; simp at hv
  · split
    · exact ServerFixed.trackOrderCase_data msg mem.context mem api.orders
    · intro v hv
      unfold ServerFixed.browseDealsCase at hv
      dsimp only at hv
      split at hv <;> simp at hv
    · exact ServerFixed.addCartCase_data msg mem.context mem api
    · intro v hv
      unfold ServerFixed.buyNowCase at hv
      split at hv <;> simp at hv
    · intro v hv
      unfold ServerFixed.returnOrderCase at hv
      split at hv <;> simp at hv
    · intro v hv
      unfold ServerFixed.generalQueryCase at hv
      simp at hv

/-- One full executor-plus-persistence turn preserves a non-null
stored email. -/
theorem ServerFixed.dispatchTurn_email_ne_null
    (intent msg shop token : String) (api : ApiResponses) (m : Memory)
    (h : getField m.context "email" ≠ JVal.null) :
    getField (ServerFixed.dispatchTurn intent msg shop token api m).context
      "email" ≠ JVal.null := by
  unfold ServerFixed.dispatchTurn
  dsimp only
  exact ServerFixed.persist_email_ne_null _ _
    (ServerFixed.executeAction_data_email intent msg shop token m api)
    (ServerFixed.executeAction_mem_ne_null intent msg shop token m api h)

/-- Claim C7: in every state reachable through the dispatcher's
context-writing operations (visitor auto-save, executor email
extraction, action-result persistence), once `context.email` holds a
non-null value it is never overwritten with null. -/
theorem C7_email_never_nulled (m m' : Memory)
    (hsteps : Relation.ReflTransGen ServerFixed.DispatcherStep m m')
    (h : getField m.context "email" ≠ JVal.null) :
    getField m'.context "email" ≠ JVal.null := by
  induction hsteps with
  | refl => exact h
  | tail _ hstep ih =>
      cases hstep with
      | autoSave ve vn mm =>
          exact ServerFixed.autoSave_email_ne_null ve vn _ ih
      | turn intent msg shop token api mm =>
          exact ServerFixed.dispatchTurn_email_ne_null _ _ _ _ _ _ ih

/-- Witness for C7: one auto-save step on a memory whose email is
already `"a@b.com"` leaves a non-null email. -/
theorem C7_email_never_nulled_witness :
    getField (ServerFixed.autoSaveVisitor (JVal.str "x@y.z") JVal.null
      ⟨[], [("email", JVal.str "a@b.com")]⟩).context "email" ≠ JVal.null := by
  have hne : getField (Memory.mk [] [("email", JVal.str "a@b.com")]).context
      "email" ≠ JVal.null := by
    intro hc
    exact JVal.noConfusion (show JVal.str "a@b.com" = JVal.null from hc)
  exact C7_email_never_nulled _ _
    (Relation.ReflTransGen.single
      (ServerFixed.DispatcherStep.autoSave (JVal.str "x@y.z") JVal.null _))
    hne

/-!
Claim C10 — properties of `calculateSimilarity`.  The development
proves the source's row-by-row dynamic program equal to the textbook
recursion `levRec` (stated on reversed lists because the matrix
compares last characters of prefixes), then derives the bounds and the
characterisation of the scores.
-/

/-- The recursion on an empty first string counts the second. -/
theorem levRec_nil_left (t : List Char) : levRec [] t = t.length := by
  simp [levRec]

/-- The recursion on an empty second string counts the first. -/
theorem levRec_nil_right (s : List Char) : levRec s [] = s.length := by
  cases s <;> simp [levRec]

/-- The cons/cons unfolding of the recursion. -/
theorem levRec_cons_cons (a b : Char) (s t : List Char) :
    levRec (a :: s) (b :: t) =
      if a = b then levRec s t
      else 1 + min (min (levRec s t) (levRec s (b :: t))) (levRec (a :: s) t) := by
  simp [levRec]

/-- The edit distance never exceeds the longer length. -/
theorem levRec_le_max (s t : List Char) :
    levRec s t ≤ max s.length t.length := by
  induction s, t using levRec.induct with
  | case1 t => simp [levRec_nil_left]
  | case2 a s => simp [levRec_nil_right]
  | case3 s b t ih =>
      rw [levRec_cons_cons, if_pos rfl]
      simp only [List.length_cons]
      omega
  | case4 a s b t hne ih1 ih2 ih3 =>
      rw [levRec_cons_cons, if_neg hne]
      simp only [List.length_cons]
      omega

/-- Distance zero forces equality. -/
theorem levRec_eq_zero {s t : List Char} (h : levRec s t = 0) : s = t := by
  induction s, t using levRec.induct with
  | case1 t =>
      rw [levRec_nil_left] at h
      simp [List.length_eq_zero] at h
      exact h.symm
  | case2 a s =>
      rw [levRec_nil_right] at h
      simp at h
  | case3 s b t ih =>
      rw [levRec_cons_cons, if_pos rfl] at h
      rw [ih h]
  | case4 a s b t hne ih1 ih2 ih3 =>
      rw [levRec_cons_cons, if_neg hne] at h
      omega

/-- A specified row always starts with its first entry. -/
theorem rowSpecAux_cons_head_tail (acc tRev : List Char) (cs : List Char) :
    rowSpecAux acc tRev cs =
      levRec acc tRev :: (rowSpecAux acc tRev cs).tail := by
  cases cs <;> simp [rowSpecAux]

/-- The first entry of a specified row. -/
theorem rowSpecAux_headD (acc tRev : List Char) (cs : List Char) :
    (rowSpecAux acc tRev cs).headD 0 = levRec acc tRev := by
  cases cs <;> simp [rowSpecAux]

/-- Walking one row of the matrix produces exactly the specified
entries for the extended processed prefix. -/
theorem nextRowGo_spec (ch : Char) :
    ∀ (cs acc tRev : List Char),
      nextRowGo ch cs (levRec acc tRev) ((rowSpecAux acc tRev cs).tail)
        (levRec acc (ch :: tRev)) =
      (rowSpecAux acc (ch :: tRev) cs).tail := by
  intro cs
  induction cs with
  | nil => intro acc tRev; simp [rowSpecAux, nextRowGo]
  | cons c cs' ih =>
      intro acc tRev
      have hcur : (if c = ch then levRec acc tRev
          else min (min (levRec acc tRev + 1) (levRec acc (ch :: tRev) + 1))
            (levRec (c :: acc) tRev + 1)) =
          levRec (c :: acc) (ch :: tRev) := by
        rw [levRec_cons_cons]
        split
        · rfl
        · omega
      calc nextRowGo ch (c :: cs') (levRec acc tRev)
            ((rowSpecAux acc tRev (c :: cs')).tail) (levRec acc (ch :: tRev))
          = nextRowGo ch (c :: cs') (levRec acc tRev)
              (levRec (c :: acc) tRev :: (rowSpecAux (c :: acc) tRev cs').tail)
              (levRec acc (ch :: tRev)) := by
            rw [show (rowSpecAux acc tRev (c :: cs')).tail =
                rowSpecAux (c :: acc) tRev cs' from rfl,
              rowSpecAux_cons_head_tail]
            rfl
        _ = levRec (c :: acc) (ch :: tRev) ::
              nextRowGo ch cs' (levRec (c :: acc) tRev)
                ((rowSpecAux (c :: acc) tRev cs').tail)
                (levRec (c :: acc) (ch :: tRev)) := by
            simp only [nextRowGo]
            rw [hcur]
        _ = levRec (c :: acc) (ch :: tRev) ::
              (rowSpecAux (c :: acc) (ch :: tRev) cs').tail := by
            rw [ih]
        _ = (rowSpecAux acc (ch :: tRev) (c :: cs')).tail := by
            rw [show (rowSpecAux acc (ch :: tRev) (c :: cs')).tail =
                rowSpecAux (c :: acc) (ch :: tRev) cs' from rfl,
              rowSpecAux_cons_head_tail]
            rfl

/-- Computing a matrix row from the previous specified row yields the
specified row for the next character. -/
theorem nextRow_spec (ch : Char) (s1 tRev : List Char) :
    nextRow ch s1 (rowSpecAux [] tRev s1) = rowSpecAux [] (ch :: tRev) s1 := by
  unfold nextRow
  dsimp only
  rw [rowSpecAux_headD]
  have hfirst : levRec [] tRev + 1 = levRec [] (ch :: tRev) := by
    rw [levRec_nil_left, levRec_nil_left]; rfl
  rw [hfirst]
  rw [nextRowGo_spec ch s1 [] tRev]
  exact (rowSpecAux_cons_head_tail [] (ch :: tRev) s1).symm

/-- Iterating rows over the remaining characters extends the processed
(reversed) prefix. -/
theorem levRows_spec (s1 : List Char) :
    ∀ (rest tRev : List Char),
      levRows s1 rest (rowSpecAux [] tRev s1) =
        rowSpecAux [] (rest.reverse ++ tRev) s1 := by
  intro rest
  induction rest with
  | nil => intro tRev; simp [levRows]
  | cons ch rest' ih =>
      intro tRev
      rw [show levRows s1 (ch :: rest') (rowSpecAux [] tRev s1) =
          levRows s1 rest' (nextRow ch s1 (rowSpecAux [] tRev s1)) from rfl]
      rw [nextRow_spec, ih]
      simp

/-- The initial row (`matrix[0][j] = j`) is the specified row for the
empty processed prefix. -/
theorem rowSpecAux_nil_tRev :
    ∀ (cs acc : List Char),
      rowSpecAux acc [] cs = List.range' acc.length (cs.length + 1) := by
  intro cs
  induction cs with
  | nil =>
      intro acc
      simp [rowSpecAux, levRec_nil_right, List.range']
  | cons c cs' ih =>
      intro acc
      rw [show rowSpecAux acc [] (c :: cs') =
          levRec acc [] :: rowSpecAux (c :: acc) [] cs' from rfl]
      rw [levRec_nil_right, ih]
      rw [List.range'_succ]
      rfl

/-- The last entry of a specified row is the distance for the full
first string. -/
theorem rowSpecAux_getLastD (tRev : List Char) :
    ∀ (cs acc : List Char) (d : Nat),
      (rowSpecAux acc tRev cs).getLastD d =
        levRec (cs.reverse ++ acc) tRev := by
  intro cs
  induction cs with
  | nil => intro acc d; simp [rowSpecAux]
  | cons c cs' ih =>
      intro acc d
      rw [show rowSpecAux acc tRev (c :: cs') =
          levRec acc tRev :: rowSpecAux (c :: acc) tRev cs' from rfl]
      rw [List.getLastD_cons, ih]
      simp

/-- The source's dynamic program computes the recursive edit distance
(of the reversed strings, which has the same length bounds and zero
characterisation). -/
theorem levenshteinDistance_eq_levRec (s t : List Char) :
    levenshteinDistance s t = levRec s.reverse t.reverse := by
  unfold levenshteinDistance
  have hinit : List.range (s.length + 1) = rowSpecAux [] [] s := by
    rw [rowSpecAux_nil_tRev s []]
    simp [List.range_eq_range']
  rw [hinit, levRows_spec s t [], rowSpecAux_getLastD]
  simp

/-- Every list is a prefix of itself. -/
theorem isPrefixOf_self (l : List Char) : l.isPrefixOf l = true := by
  induction l with
  | nil => rfl
  | cons a as ih => simp [List.isPrefixOf, ih]

/-- Every string contains itself (`"x".includes("x")`). -/
theorem containsSub_self (l : List Char) : containsSub l l = true := by
  unfold containsSub
  exact List.any_eq_true.mpr
    ⟨l, (List.mem_tails _ _).mpr (List.suffix_refl _), isPrefixOf_self _⟩

/-- The longer argument's length is the maximum of the two lengths. -/
theorem longer_length (str1 str2 : List Char) :
    (if str1.length > str2.length then str1 else str2).length =
      max str1.length str2.length := by
  split <;> omega

/-- The computed edit distance is at most the longer length. -/
theorem lev_le_longer (str1 str2 : List Char) :
    levenshteinDistance str1 str2 ≤
      (if str1.length > str2.length then str1 else str2).length := by
  rw [levenshteinDistance_eq_levRec, longer_length]
  have h := levRec_le_max str1.reverse str2.reverse
  simpa using h

/-- A computed distance of zero forces the strings equal. -/
theorem lev_zero_eq (str1 str2 : List Char)
    (h : levenshteinDistance str1 str2 = 0) : str1 = str2 := by
  rw [levenshteinDistance_eq_levRec] at h
  have := levRec_eq_zero h
  exact List.reverse_injective this

/-- Claim C10 (amended: the containment clause requires the longer
string non-empty, since `calculateSimilarity("", "")` returns 1.0
before the containment check): the score is always in [0, 1]; when the
longer string is non-empty and contains the shorter (including every
pair of equal non-empty strings) the score is exactly 0.9; the score
is 1.0 exactly when the longer string is empty; otherwise the score is
`(longer.length - levenshteinDistance) / longer.length`. -/
theorem C10_similarity (str1 str2 : List Char) :
    (0 ≤ calculateSimilarity str1 str2 ∧ calculateSimilarity str1 str2 ≤ 1) ∧
    ((if str1.length > str2.length then str1 else str2) ≠ [] →
      containsSub (if str1.length > str2.length then str2 else str1)
        (if str1.length > str2.length then str1 else str2) = true →
      calculateSimilarity str1 str2 = 9/10) ∧
    (calculateSimilarity str1 str2 = 1 ↔
      (if str1.length > str2.length then str1 else str2) = []) ∧
    (containsSub (if str1.length > str2.length then str2 else str1)
        (if str1.length > str2.length then str1 else str2) = false →
      calculateSimilarity str1 str2 =
        (((if str1.length > str2.length then str1 else str2).length : ℚ) -
          levenshteinDistance str1 str2) /
          (if str1.length > str2.length then str1 else str2).length) := by
  by_cases hlen : (if str1.length > str2.length then str1 else str2).length = 0
  · have hnil : (if str1.length > str2.length then str1 else str2) = [] :=
      List.length_eq_zero.mp hlen
    have hsim : calculateSimilarity str1 str2 = 1 := by
      unfold calculateSimilarity
      dsimp only
      rw [if_pos hlen]
    have hshortnil : (if str1.length > str2.length then str2 else str1) = [] := by
      have h := longer_length str1 str2
      rw [hlen] at h
      have h1 : str1.length = 0 ∧ str2.length = 0 := by omega
      split <;> [exact List.length_eq_zero.mp h1.2;
        exact List.length_eq_zero.mp h1.1]
    refine ⟨⟨by rw [hsim]; norm_num, by rw [hsim]⟩,
      fun hne _ => absurd hnil hne, ⟨fun _ => hnil, fun _ => hsim⟩, fun hcf => ?_⟩
    rw [hshortnil, hnil] at hcf
    rw [containsSub_self] at hcf
    exact absurd hcf (by simp)
  · by_cases hcont : containsSub (if str1.length > str2.length then str2 else str1)
        (if str1.length > str2.length then str1 else str2) = true
    · have hsim : calculateSimilarity str1 str2 = 9/10 := by
        unfold calculateSimilarity
        dsimp only
        rw [if_neg hlen, if_pos hcont]
      refine ⟨⟨by rw [hsim]; norm_num, by rw [hsim]; norm_num⟩,
        fun _ _ => hsim, ⟨fun h1 => ?_, fun hn => ?_⟩,
        fun hcf => absurd hcont (by simp [hcf])⟩
      · rw [hsim] at h1
        exact absurd h1 (by norm_num)
      · exact absurd (List.length_eq_zero.mpr hn) hlen
    · have hcf : containsSub (if str1.length > str2.length then str2 else str1)
          (if str1.length > str2.length then str1 else str2) = false := by
        simpa using hcont
      have hsim : calculateSimilarity str1 str2 =
          (((if str1.length > str2.length then str1 else str2).length : ℚ) -
            levenshteinDistance str1 str2) /
            (if str1.length > str2.length then str1 else str2).length := by
        unfold calculateSimilarity
        dsimp only
        rw [if_neg hlen, if_neg (by simp [hcf])]
      have hLpos : 0 < ((if str1.length > str2.length then str1 else str2).length : ℚ) := by
        have : 0 < (if str1.length > str2.length then str1 else str2).length := by
          omega
        exact_mod_cast this
      have hdle := lev_le_longer str1 str2
      have hdleQ : (levenshteinDistance str1 str2 : ℚ) ≤
          ((if str1.length > str2.length then str1 else str2).length : ℚ) := by
        exact_mod_cast hdle
      refine ⟨⟨?_, ?_⟩, fun _ hx => absurd hx hcont, ⟨fun h1 => ?_, fun hn => ?_⟩,
        fun _ => hsim⟩
      · rw [hsim]
        apply div_nonneg
        · linarith
        · linarith
      · rw [hsim]
        rw [div_le_one hLpos]
        have : (0:ℚ) ≤ (levenshteinDistance str1 str2 : ℚ) := by positivity
        linarith
      · rw [hsim] at h1
        rw [div_eq_one_iff_eq (ne_of_gt hLpos)] at h1
        have hd0 : (levenshteinDistance str1 str2 : ℚ) = 0 := by linarith
        have hd0' : levenshteinDistance str1 str2 = 0 := by exact_mod_cast hd0
        have heq := lev_zero_eq str1 str2 hd0'
        rw [heq] at hcont
        simp at hcont
        rw [containsSub_self str2] at hcont
        exact absurd hcont (by simp)
      · exact absurd (List.length_eq_zero.mpr hn) hlen

/-- Claim C10, as stated, is false at the pair of empty strings: each
contains the other (`"".includes("")` is true), yet the similarity is
1.0, not 0.9. -/
theorem C10_counterexample :
    calculateSimilarity [] [] = 1 ∧
    containsSub [] [] = true ∧
    (1 : ℚ) ≠ 9/10 :=
  ⟨rfl, rfl, by norm_num⟩

/-- Witness for C10: `"cat"`/`"concat"` is a containment pair scoring
0.9, and `"kitten"`/`"sitting"` falls into the edit-distance branch. -/
theorem C10_similarity_witness :
    calculateSimilarity "cat".data "concat".data = 9/10 ∧
    calculateSimilarity "kitten".data "sitting".data =
      (("sitting".data.length : ℚ) -
        levenshteinDistance "kitten".data "sitting".data) /
        ("sitting".data.length : ℚ) := by
  constructor
  · exact (C10_similarity "cat".data "concat".data).2.1 (by decide) (by decide)
  · exact (C10_similarity "kitten".data "sitting".data).2.2.2 (by decide)

/-- Witness for C1 (amended): instantiated at the concrete exception
message `"oops"`. -/
theorem C1_catch_envelope_witness :
    (ServerCopy.zobotCatchHandler "oops").status = 200 ∧
    (ServerFixed.zobotCatchHandler "oops").status = 500 :=
  ⟨(C1_catch_envelope "oops").1, (C1_catch_envelope "oops").2.2.2.2.1⟩

/-- Witness for C8 (amended): the copy builder's thrown error is not
the empty reply envelope. -/
theorem C8_null_action_result_witness :
    ServerCopy.buildSalesIQResponse none ≠ Except.ok { action := "reply" } :=
  C8_null_action_result.2 { action := "reply" }
